import Mathlib

/-!
# Feature Service request routing (`src/route.js`)

A shallow embedding of `route`, `execQuery`, `execGenerateRenderer`, `execInfo`,
`tryParse` and `coerceQuery`, together with the parts of the JavaScript language
they rely on (`JSON.parse`, truthiness, `isNaN`, `RegExp.prototype.test`).

Conventions of the embedding

* A JavaScript string is the list of its UTF-16 code units (`JsString`).
* A JavaScript value is a `JsValue`. Functions never occur as values: the request
  query comes from strings and `JSON.parse`, neither of which produces a function.
* A Number is kept as the exact decimal it was written as (`JsNum.dec`), or `NaN`.
  Binary64 rounding is observable in `route` only through truthiness (`!x`, `x || y`,
  `x && y`), which `JsNum.isZero` decides exactly; a literal that overflows to
  `Infinity` stays a (large) decimal, which is truthy and not `NaN` just the same.
* An object is the list of its own properties in source order; when a key is
  repeated the last occurrence is the property's value.
* The external collaborators (`FsQuery`, `FsGenerateRenderer`, `FsInfo.*`) are
  parameters (`Ops`); `helpers.responseHandler` is recorded as a delivery.
* The environment variables `route` reads and the linter `geojsonhint.hint` are
  parameters too (`Host`). The linter is called outside every `try` block, so an exception
  it raises escapes `route`.
* Writing to the console (`console.log`, `console.trace`) changes nothing that `route`
  returns or delivers and is not recorded.
-/

namespace FeatureServer

/-! ## Strings and values -/

/-- A JavaScript string, as its UTF-16 code units. -/
abbrev JsString := List Nat

/-- The code units of a literal whose characters all lie in the Basic Multilingual Plane. -/
def js (s : String) : JsString := s.toList.map Char.toNat

/-- A JavaScript Number: `NaN`, or the decimal `(-1)^neg * mant * 10^exp`. -/
inductive JsNum where
  | nan
  | dec (neg : Bool) (mant : Nat) (exp : Int)
deriving DecidableEq, Repr

/-- Whether the Number is `+0` or `-0` once rounded to binary64 (round to nearest, ties to
even): exactly the decimals of magnitude at most `2^-1075`. -/
def JsNum.isZero : JsNum → Bool
  | .nan => false
  | .dec _ mant exp =>
    mant == 0 || (decide (exp < 0) && decide (mant * 2 ^ 1075 ≤ 10 ^ (-exp).toNat))

/-- JavaScript values without functions and symbols. -/
inductive JsValue where
  | undefined
  | null
  | bool (b : Bool)
  | num (n : JsNum)
  | str (s : JsString)
  | arr (items : List JsValue)
  | obj (props : List (JsString × JsValue))
deriving Repr

/-- The Number literal `n`. -/
def JsValue.nat (n : Nat) : JsValue := .num (.dec false n 0)

/-- ToBoolean. -/
def truthy : JsValue → Bool
  | .undefined => false
  | .null => false
  | .bool b => b
  | .num .nan => false
  | .num n => !n.isZero
  | .str s => !s.isEmpty
  | .arr _ => true
  | .obj _ => true

/-- The value of `a || b`. -/
def jsOr (a b : JsValue) : JsValue := if truthy a then a else b

/-- The last binding of `key` among own properties, if any. -/
def lookupLast {β : Type} (key : JsString) : List (JsString × β) → Option β
  | [] => none
  | (k, v) :: rest =>
    match lookupLast key rest with
    | some w => some w
    | none => if k = key then some v else none

/-- Property read `v.key` for a `key` that no prototype defines (`metadata`,
`maxRecordCount`): an own property of an object, `undefined` otherwise. -/
def JsValue.get (v : JsValue) (key : JsString) : JsValue :=
  match v with
  | .obj props => (lookupLast key props).getD .undefined
  | _ => .undefined

/-- Exceptions that nothing in `route` catches by name. The ones the language raises here
are TypeErrors, and the embedding does not tell other exceptions apart from them. -/
inductive JsError where
  | typeError
deriving DecidableEq, Repr

/-! ## `isNaN` -/

/-- The decimal digits `0`-`9`. -/
def isDecDigit (c : Nat) : Bool := decide (48 ≤ c) && decide (c ≤ 57)

/-- StrWhiteSpaceChar: WhiteSpace and LineTerminator code points. -/
def isStrWhiteSpace (c : Nat) : Bool :=
  c == 9 || c == 10 || c == 11 || c == 12 || c == 13 || c == 32 || c == 0xA0 ||
  c == 0x1680 || (decide (0x2000 ≤ c) && decide (c ≤ 0x200A)) || c == 0x2028 ||
  c == 0x2029 || c == 0x202F || c == 0x205F || c == 0x3000 || c == 0xFEFF

/-- Removes leading and trailing StrWhiteSpace. -/
def trimWhiteSpace (s : JsString) : JsString :=
  ((s.dropWhile isStrWhiteSpace).reverse.dropWhile isStrWhiteSpace).reverse

/-- ExponentPart, optional: nothing, or `e`/`E`, an optional sign and at least one digit. -/
def exponentOk : JsString → Bool
  | [] => true
  | c :: rest =>
    (c == 101 || c == 69) &&
      (match rest with
       | 43 :: ds => !ds.isEmpty && ds.all isDecDigit
       | 45 :: ds => !ds.isEmpty && ds.all isDecDigit
       | ds => !ds.isEmpty && ds.all isDecDigit)

/-- StrUnsignedDecimalLiteral: `Infinity`, `d+ . d* exp?`, `. d+ exp?` or `d+ exp?`. -/
def unsignedDecimalOk (s : JsString) : Bool :=
  s == js "Infinity" ||
    (match s.dropWhile isDecDigit with
     | 46 :: rest =>
       (!(s.takeWhile isDecDigit).isEmpty || !(rest.takeWhile isDecDigit).isEmpty) &&
         exponentOk (rest.dropWhile isDecDigit)
     | rest => !(s.takeWhile isDecDigit).isEmpty && exponentOk rest)

/-- StrDecimalLiteral: an optional sign before a StrUnsignedDecimalLiteral. -/
def strDecimalOk : JsString → Bool
  | 43 :: rest => unsignedDecimalOk rest
  | 45 :: rest => unsignedDecimalOk rest
  | s => unsignedDecimalOk s

/-- NonDecimalIntegerLiteral: `0x`, `0o` or `0b` (either case) and at least one digit of
that radix. -/
def nonDecimalOk : JsString → Bool
  | 48 :: r :: ds =>
    !ds.isEmpty &&
      (((r == 120 || r == 88) &&
          ds.all (fun c => isDecDigit c || (decide (97 ≤ c) && decide (c ≤ 102)) ||
            (decide (65 ≤ c) && decide (c ≤ 70)))) ||
        ((r == 111 || r == 79) && ds.all (fun c => decide (48 ≤ c) && decide (c ≤ 55))) ||
        ((r == 98 || r == 66) && ds.all (fun c => c == 48 || c == 49)))
  | _ => false

/-- StringToNumber yields a Number other than `NaN`: the trimmed string is empty or a
StrNumericLiteral. -/
def stringIsNumeric (s : JsString) : Bool :=
  (trimWhiteSpace s).isEmpty || strDecimalOk (trimWhiteSpace s) ||
    nonDecimalOk (trimWhiteSpace s)

/-- The outcome of ToString as far as StringToNumber needs it. -/
inductive Shown where
  /-- this very string -/
  | text (s : JsString)
  /-- the decimal rendering of a Number (Number::toString) -/
  | number (n : JsNum)
  /-- two or more array elements joined by `,` -/
  | joined
deriving DecidableEq, Repr

/-- Whether an own property named `toString` exists. Its value is data, hence not
callable, and it hides `Object.prototype.toString`. -/
def hasOwnToString (props : List (JsString × JsValue)) : Bool :=
  props.any (fun p => p.1 == js "toString")

mutual
/-- ToString. An array goes through `Array.prototype.join`; an object goes through
OrdinaryToPrimitive, which raises a TypeError when `toString` is not callable (the
inherited `valueOf` returns the object itself) and gives `[object Object]` otherwise. -/
def toShown : JsValue → Except JsError Shown
  | .undefined => .ok (.text (js "undefined"))
  | .null => .ok (.text (js "null"))
  | .bool b => .ok (.text (if b then js "true" else js "false"))
  | .num n => .ok (.number n)
  | .str s => .ok (.text s)
  | .arr items => joinShown items
  | .obj props =>
    if hasOwnToString props then .error .typeError else .ok (.text (js "[object Object]"))
/-- The method `Array.prototype.join` with the default separator. -/
def joinShown : List JsValue → Except JsError Shown
  | [] => .ok (.text [])
  | [x] => elemShown x
  | x :: y :: rest =>
    match elemShown x with
    | .error e => .error e
    | .ok _ =>
      match joinShown (y :: rest) with
      | .error e => .error e
      | .ok _ => .ok .joined
/-- One element inside `join`: `undefined` and `null` give the empty string. -/
def elemShown : JsValue → Except JsError Shown
  | .undefined => .ok (.text [])
  | .null => .ok (.text [])
  | .bool b => .ok (.text (if b then js "true" else js "false"))
  | .num n => .ok (.number n)
  | .str s => .ok (.text s)
  | .arr items => joinShown items
  | .obj props =>
    if hasOwnToString props then .error .typeError else .ok (.text (js "[object Object]"))
end

/-- Whether StringToNumber of a ToString outcome is `NaN`. The rendering of a Number
other than `NaN` is a StrNumericLiteral; a joined list contains a comma. -/
def Shown.isNaN : Shown → Bool
  | .text s => !stringIsNumeric s
  | .number n => n == .nan
  | .joined => true

/-- The global `isNaN(v)`: whether ToNumber(v) is `NaN`; ToNumber of an array or object
converts it to a primitive first, which can raise. -/
def isNaN : JsValue → Except JsError Bool
  | .undefined => .ok true
  | .null => .ok false
  | .bool _ => .ok false
  | .num n => .ok (n == .nan)
  | .str s => .ok (!stringIsNumeric s)
  | v => (toShown v).map Shown.isNaN

/-! ## `JSON.parse` -/

/-- JSON tokens. -/
inductive Token where
  | lbrace | rbrace | lbrack | rbrack | colon | comma
  | str (s : JsString)
  /-- a number literal, read as the decimal `(-1)^neg * mant * 10^exp` -/
  | num (neg : Bool) (mant : Nat) (exp : Int)
  | true | false | null
deriving DecidableEq, Repr

/-- States of the tokenizer, which reads one code unit at a time. -/
inductive Lex where
  /-- between tokens -/
  | start
  /-- inside `true`, `false` or `null`: the code units still expected -/
  | word (rest : JsString) (tok : Token)
  /-- inside a string: the code units read so far -/
  | inStr (acc : JsString)
  /-- after a backslash inside a string -/
  | esc (acc : JsString)
  /-- inside a `\u` escape: `k` hex digits read, of value `v` -/
  | hex (acc : JsString) (k v : Nat)
  /-- after the minus sign of a number -/
  | minus
  /-- after the single integer digit `0` -/
  | zero (neg : Bool)
  /-- inside the integer digits -/
  | int (neg : Bool) (m : Nat)
  /-- after the decimal point -/
  | dot (neg : Bool) (m : Nat)
  /-- inside the fraction: `k` fraction digits read -/
  | frac (neg : Bool) (m k : Nat)
  /-- after `e` or `E` -/
  | e (neg : Bool) (m k : Nat)
  /-- after the sign of the exponent -/
  | eSign (neg : Bool) (m k : Nat) (eneg : Bool)
  /-- inside the exponent digits -/
  | expo (neg : Bool) (m k : Nat) (eneg : Bool) (ev : Nat)
  /-- not JSON -/
  | bad
deriving DecidableEq, Repr

/-- JSON whitespace: tab, line feed, carriage return, space. -/
def isJsonWhiteSpace (c : Nat) : Bool := c == 9 || c == 10 || c == 13 || c == 32

/-- The value of a hexadecimal digit. -/
def hexValue (c : Nat) : Option Nat :=
  if 48 ≤ c ∧ c ≤ 57 then some (c - 48)
  else if 97 ≤ c ∧ c ≤ 102 then some (c - 87)
  else if 65 ≤ c ∧ c ≤ 70 then some (c - 55)
  else none

/-- The first code unit of a token. -/
def lexStart (toks : List Token) (c : Nat) : Lex × List Token :=
  if isJsonWhiteSpace c then (.start, toks)
  else if c = 123 then (.start, toks ++ [.lbrace])
  else if c = 125 then (.start, toks ++ [.rbrace])
  else if c = 91 then (.start, toks ++ [.lbrack])
  else if c = 93 then (.start, toks ++ [.rbrack])
  else if c = 58 then (.start, toks ++ [.colon])
  else if c = 44 then (.start, toks ++ [.comma])
  else if c = 34 then (.inStr [], toks)
  else if c = 45 then (.minus, toks)
  else if c = 48 then (.zero false, toks)
  else if isDecDigit c then (.int false (c - 48), toks)
  else if c = 116 then (.word (js "rue") .true, toks)
  else if c = 102 then (.word (js "alse") .false, toks)
  else if c = 110 then (.word (js "ull") .null, toks)
  else (.bad, toks)

/-- The token of a finished number literal with digits `m`, of which `k` are fraction
digits, and exponent `ev`, negative when `eneg`. -/
def numberOf (neg : Bool) (m k : Nat) (eneg : Bool) (ev : Nat) : Token :=
  .num neg m ((if eneg then -(ev : Int) else (ev : Int)) - (k : Int))

/-- One step of the tokenizer. A number ends at the first code unit that cannot continue
it; that code unit then starts the next token. -/
def lexStep : Lex × List Token → Nat → Lex × List Token
  | (.start, toks), c => lexStart toks c
  | (.word rest tok, toks), c =>
    match rest with
    | [] => (.bad, toks)
    | [x] => if c = x then (.start, toks ++ [tok]) else (.bad, toks)
    | x :: xs => if c = x then (.word xs tok, toks) else (.bad, toks)
  | (.inStr acc, toks), c =>
    if c = 34 then (.start, toks ++ [.str acc])
    else if c = 92 then (.esc acc, toks)
    else if c < 32 then (.bad, toks)
    else (.inStr (acc ++ [c]), toks)
  | (.esc acc, toks), c =>
    if c = 34 then (.inStr (acc ++ [34]), toks)
    else if c = 92 then (.inStr (acc ++ [92]), toks)
    else if c = 47 then (.inStr (acc ++ [47]), toks)
    else if c = 98 then (.inStr (acc ++ [8]), toks)
    else if c = 102 then (.inStr (acc ++ [12]), toks)
    else if c = 110 then (.inStr (acc ++ [10]), toks)
    else if c = 114 then (.inStr (acc ++ [13]), toks)
    else if c = 116 then (.inStr (acc ++ [9]), toks)
    else if c = 117 then (.hex acc 0 0, toks)
    else (.bad, toks)
  | (.hex acc k v, toks), c =>
    match hexValue c with
    | none => (.bad, toks)
    | some d =>
      if k = 3 then (.inStr (acc ++ [v * 16 + d]), toks) else (.hex acc (k + 1) (v * 16 + d), toks)
  | (.minus, toks), c =>
    if c = 48 then (.zero true, toks)
    else if isDecDigit c then (.int true (c - 48), toks)
    else (.bad, toks)
  | (.zero neg, toks), c =>
    if c = 46 then (.dot neg 0, toks)
    else if c = 101 ∨ c = 69 then (.e neg 0 0, toks)
    else lexStart (toks ++ [numberOf neg 0 0 false 0]) c
  | (.int neg m, toks), c =>
    if isDecDigit c then (.int neg (m * 10 + (c - 48)), toks)
    else if c = 46 then (.dot neg m, toks)
    else if c = 101 ∨ c = 69 then (.e neg m 0, toks)
    else lexStart (toks ++ [numberOf neg m 0 false 0]) c
  | (.dot neg m, toks), c =>
    if isDecDigit c then (.frac neg (m * 10 + (c - 48)) 1, toks) else (.bad, toks)
  | (.frac neg m k, toks), c =>
    if isDecDigit c then (.frac neg (m * 10 + (c - 48)) (k + 1), toks)
    else if c = 101 ∨ c = 69 then (.e neg m k, toks)
    else lexStart (toks ++ [numberOf neg m k false 0]) c
  | (.e neg m k, toks), c =>
    if c = 43 then (.eSign neg m k false, toks)
    else if c = 45 then (.eSign neg m k true, toks)
    else if isDecDigit c then (.expo neg m k false (c - 48), toks)
    else (.bad, toks)
  | (.eSign neg m k eneg, toks), c =>
    if isDecDigit c then (.expo neg m k eneg (c - 48), toks) else (.bad, toks)
  | (.expo neg m k eneg ev, toks), c =>
    if isDecDigit c then (.expo neg m k eneg (ev * 10 + (c - 48)), toks)
    else lexStart (toks ++ [numberOf neg m k eneg ev]) c
  | (.bad, toks), _ => (.bad, toks)

/-- The tokens at the end of the input, when the input may end in this state. -/
def lexEnd : Lex × List Token → Option (List Token)
  | (.start, toks) => some toks
  | (.zero neg, toks) => some (toks ++ [numberOf neg 0 0 false 0])
  | (.int neg m, toks) => some (toks ++ [numberOf neg m 0 false 0])
  | (.frac neg m k, toks) => some (toks ++ [numberOf neg m k false 0])
  | (.expo neg m k eneg ev, toks) => some (toks ++ [numberOf neg m k eneg ev])
  | _ => none

/-- The tokens of a JSON text, or `none` when it has a lexical error. -/
def tokenize (s : JsString) : Option (List Token) :=
  lexEnd (s.foldl lexStep (.start, []))

/-- An enclosing array or object still being read. -/
inductive Frame where
  /-- an array and the elements completed so far -/
  | arr (items : List JsValue)
  /-- an object, the members completed so far, and the key whose value is being read -/
  | obj (props : List (JsString × JsValue)) (key : JsString)

/-- What the parser expects next. -/
inductive Mode where
  /-- a value -/
  | value
  /-- after `[`: a value or `]` -/
  | arrFirst
  /-- after the opening brace: a key or the closing brace -/
  | objFirst
  /-- after `,` inside an object: a key -/
  | objKey (props : List (JsString × JsValue))
  /-- after a key: `:` -/
  | colon (props : List (JsString × JsValue)) (key : JsString)
  /-- a value is complete: `,` or the closing bracket of the enclosing frame -/
  | after (v : JsValue)
  /-- not JSON -/
  | bad

/-- A token that starts a value. -/
def parseValueStart (stack : List Frame) : Token → List Frame × Mode
  | .str s => (stack, .after (.str s))
  | .num neg mant exp => (stack, .after (.num (.dec neg mant exp)))
  | .true => (stack, .after (.bool true))
  | .false => (stack, .after (.bool false))
  | .null => (stack, .after .null)
  | .lbrack => (.arr [] :: stack, .arrFirst)
  | .lbrace => (stack, .objFirst)
  | _ => (stack, .bad)

/-- One step of the parser. -/
def parseStep : List Frame × Mode → Token → List Frame × Mode
  | (stack, .value), t => parseValueStart stack t
  | (stack, .arrFirst), t =>
    match t, stack with
    | .rbrack, .arr items :: rest => (rest, .after (.arr items))
    | _, _ => parseValueStart stack t
  | (stack, .objFirst), t =>
    match t with
    | .rbrace => (stack, .after (.obj []))
    | .str k => (stack, .colon [] k)
    | _ => (stack, .bad)
  | (stack, .objKey props), t =>
    match t with
    | .str k => (stack, .colon props k)
    | _ => (stack, .bad)
  | (stack, .colon props k), t =>
    match t with
    | .colon => (.obj props k :: stack, .value)
    | _ => (stack, .bad)
  | (stack, .after v), t =>
    match stack, t with
    | .arr items :: rest, .comma => (.arr (items ++ [v]) :: rest, .value)
    | .arr items :: rest, .rbrack => (rest, .after (.arr (items ++ [v])))
    | .obj props k :: rest, .comma => (rest, .objKey (props ++ [(k, v)]))
    | .obj props k :: rest, .rbrace => (rest, .after (.obj (props ++ [(k, v)])))
    | _, _ => (stack, .bad)
  | (stack, .bad), _ => (stack, .bad)

/-- The value read, when the tokens are exactly one complete value. -/
def parseEnd : List Frame × Mode → Option JsValue
  | ([], .after v) => some v
  | _ => none

/-- The function `JSON.parse` on a string: `none` stands for the SyntaxError. -/
def jsonParse (s : JsString) : Option JsValue :=
  match tokenize s with
  | none => none
  | some toks => parseEnd (toks.foldl parseStep ([], .value))

/-! ## Regular expressions -/

/-- The pattern atoms that occur in the regular expressions of `execInfo`. -/
inductive Atom where
  /-- a pattern character -/
  | chr (c : Nat)
  /-- the atom `\d+` -/
  | digits
  /-- the anchor `$` (no `m` flag: the end of the input) -/
  | eos
  /-- the group `($|\?)` -/
  | eosOrQ
deriving DecidableEq, Repr

/-- A regular expression literal: a sequence of atoms and the `i` flag. -/
structure RegExp where
  atoms : List Atom
  ignoreCase : Bool

/-- Canonicalize of a code unit under the `i` flag (without `u`), as far as it matters
against an ASCII pattern character: ASCII letters go to upper case, and no code unit
outside ASCII is mapped into ASCII. -/
def canonicalize (c : Nat) : Nat := if 97 ≤ c ∧ c ≤ 122 then c - 32 else c

/-- Whether the input code unit `x` matches the pattern character `c`. -/
def charMatches (ic : Bool) (c x : Nat) : Bool :=
  if ic then canonicalize x == canonicalize c else x == c

/-- What remains of the input after each way `\d+` can match at its start. -/
def digitTails : JsString → List JsString
  | [] => []
  | x :: xs => if isDecDigit x then xs :: digitTails xs else []

/-- Whether the atoms match at the start of the input. -/
def matchHere (ic : Bool) : List Atom → JsString → Bool
  | [], _ => true
  | .chr c :: rest, s =>
    match s with
    | [] => false
    | x :: xs => charMatches ic c x && matchHere ic rest xs
  | .digits :: rest, s => (digitTails s).any (fun r => matchHere ic rest r)
  | .eos :: rest, s => s.isEmpty && matchHere ic rest s
  | .eosOrQ :: rest, s =>
    (s.isEmpty && matchHere ic rest s) ||
      (match s with
       | 63 :: xs => matchHere ic rest xs
       | _ => false)

/-- Whether the atoms match at some position of the input. -/
def searchFrom (ic : Bool) (atoms : List Atom) : JsString → Bool
  | [] => matchHere ic atoms []
  | x :: xs => matchHere ic atoms (x :: xs) || searchFrom ic atoms xs

/-- The method `RegExp.prototype.test` of a regular expression without the `g` flag. -/
def RegExp.test (re : RegExp) (s : JsString) : Bool := searchFrom re.ignoreCase re.atoms s

/-- The atoms of a run of literal pattern characters. -/
def chars (s : String) : List Atom := (js s).map Atom.chr

/-- The pattern `/\/rest\/info$/i` of `execInfo`. -/
def reRestInfo : RegExp := ⟨chars "/rest/info" ++ [.eos], true⟩
/-- The pattern `/\/FeatureServer$/i` of `execInfo`. -/
def reServer : RegExp := ⟨chars "/FeatureServer" ++ [.eos], true⟩
/-- The pattern `/\/FeatureServer\/info$/i` of `execInfo`. -/
def reServerInfo : RegExp := ⟨chars "/FeatureServer/info" ++ [.eos], true⟩
/-- The pattern `/\/FeatureServer\/($|\?)/` of `execInfo`. -/
def reServerSlash : RegExp := ⟨chars "/FeatureServer/" ++ [.eosOrQ], false⟩
/-- The pattern `/\/FeatureServer\/\d+$/i` of `execInfo`. -/
def reLayer : RegExp := ⟨chars "/FeatureServer/" ++ [.digits, .eos], true⟩
/-- The pattern `/\/FeatureServer\/\d+\/info$/i` of `execInfo`. -/
def reLayerInfo : RegExp := ⟨chars "/FeatureServer/" ++ [.digits] ++ chars "/info" ++ [.eos], true⟩
/-- The pattern `/\/FeatureServer\/\d+\/($|\?)/` of `execInfo`. -/
def reLayerSlash : RegExp := ⟨chars "/FeatureServer/" ++ [.digits] ++ chars "/" ++ [.eosOrQ], false⟩
/-- The pattern `/\/FeatureServer\/layers$/i` of `execInfo`. -/
def reLayers : RegExp := ⟨chars "/FeatureServer/layers" ++ [.eos], true⟩
/-- The pattern `/\/FeatureServer/i` of `execInfo`. -/
def reFeatureServer : RegExp := ⟨chars "/FeatureServer", true⟩

/-! ## Requests, collaborators, outcomes -/

/-- The query of the incoming request: string keys, string values. -/
abbrev RawQuery := List (JsString × JsString)

/-- The route parameters of the request. -/
abbrev Params := List (JsString × JsString)

/-- The query after coercion and parsing. -/
abbrev Query := List (JsString × JsValue)

/-- The fields of `req` that `route` reads; `none` is an absent field. -/
structure Request where
  url : Option JsString
  originalUrl : Option JsString
  query : Option RawQuery
  params : Option Params

/-- What a collaborator raises: an error with a message and an optional numeric `code`. -/
structure Failure where
  message : JsString
  code : Option Int

/-- The collaborators `FsQuery`, `FsGenerateRenderer` and `FsInfo`: each returns a payload
or raises a `Failure`. -/
structure Ops where
  query : JsValue → Query → Except Failure JsValue
  generateRenderer : JsValue → Query → Except Failure JsValue
  restInfo : JsValue → Except Failure JsValue
  serverInfo : JsValue → Params → Except Failure JsValue
  layerInfo : JsValue → Params → Except Failure JsValue
  layersInfo : JsValue → Query → Except Failure JsValue

/-- A call of a collaborator, with its arguments. -/
inductive Call where
  | query (geojson : JsValue) (query : Query)
  | generateRenderer (geojson : JsValue) (query : Query)
  | restInfo (geojson : JsValue)
  | serverInfo (geojson : JsValue) (params : Params)
  | layerInfo (geojson : JsValue) (params : Params)
  | layersInfo (geojson : JsValue) (query : Query)

/-- One call `helpers.responseHandler(req, res, status, body)`. -/
structure Response where
  status : Int
  body : JsValue

/-- What one run of `route` did: its calls of `FsQuery`, `FsGenerateRenderer` and `FsInfo`,
the responses it handed to `helpers.responseHandler`, and the exception that escaped it,
if any. -/
structure Outcome where
  calls : List Call
  delivered : List Response
  thrown : Option JsError

/-- The body `{ error: message }`. -/
def errorBody (message : JsString) : JsValue := .obj [(js "error", .str message)]

/-- The status `e.code || 500`. -/
def failureStatus (e : Failure) : Int :=
  match e.code with
  | some c => if c = 0 then 500 else c
  | none => 500

/-- The `catch` branch and the final line shared by `execQuery`, `execGenerateRenderer`
and `execInfo`: a raised failure is delivered as `(e.code || 500, { error: e.message })`,
a payload as `(200, payload)`. -/
def respond (calls : List Call) (result : Except Failure JsValue) : Outcome :=
  match result with
  | .error e => ⟨calls, [⟨failureStatus e, errorBody e.message⟩], none⟩
  | .ok payload => ⟨calls, [⟨200, payload⟩], none⟩

/-! ## `tryParse`, `coerceQuery` -/

/-- A query value after `coerceQuery`: a boolean, or the string left as it was. -/
inductive Coerced where
  | bool (b : Bool)
  | str (s : JsString)
deriving DecidableEq, Repr

/-- The body of the loop of `coerceQuery`, for one value. -/
def coerceValue (v : JsString) : Coerced :=
  if v = js "false" then .bool false
  else if v = js "true" then .bool true
  else .str v

/-- The function `coerceQuery`. -/
def coerceQuery (params : RawQuery) : List (JsString × Coerced) :=
  params.map (fun p => (p.1, coerceValue p.2))

/-- The function `tryParse`: `JSON.parse` converts its argument to a string first (a
boolean to `true` or `false`); when it raises, the argument is returned. -/
def tryParse : Coerced → JsValue
  | .bool b =>
    match jsonParse (if b then js "true" else js "false") with
    | some v => v
    | none => .bool b
  | .str s =>
    match jsonParse s with
    | some v => v
    | none => .str s

/-! ## `route` -/

/-- Property read `query.key`: `undefined` when the key is absent. -/
def getKey (query : Query) (key : JsString) : JsValue :=
  (lookupLast key query).getD .undefined

/-- Assignment `query.key = v`: replaces the value of an existing key, adds a new key at
the end. -/
def setKey (query : Query) (key : JsString) (v : JsValue) : Query :=
  if query.any (fun p => p.1 == key) then
    query.map (fun p => if p.1 == key then (p.1, v) else p)
  else query ++ [(key, v)]

/-- Lines 31-34 of `route`: `coerceQuery`, then `tryParse` on the value of every key. -/
def parseQuery (rawQuery : RawQuery) : Query :=
  (coerceQuery rawQuery).map (fun p => (p.1, tryParse p.2))

/-- The condition `x && isNaN(x)`. -/
def truthyAndNaN (x : JsValue) : Except JsError Bool :=
  if truthy x then isNaN x else .ok false

/-- How lines 31-39 of `route` end. -/
inductive Normalized where
  /-- a return through `helpers.responseHandler(req, res, 400, ...)` -/
  | invalid (response : Response)
  /-- an exception raised by `isNaN` -/
  | threw (e : JsError)
  /-- execution continues with this `req.query` -/
  | ok (query : Query)

/-- Lines 31-39 of `route`: coercion, parsing, validation of `limit` and
`resultRecordCount`, and the default of `limit`. -/
def normalize (rawQuery : RawQuery) (metadata : JsValue) : Normalized :=
  let query : Query := parseQuery rawQuery
  match truthyAndNaN (getKey query (js "limit")) with
  | .error e => .threw e
  | .ok true => .invalid ⟨400, errorBody (js "Invalid \"limit\" parameter")⟩
  | .ok false =>
    match truthyAndNaN (getKey query (js "resultRecordCount")) with
    | .error e => .threw e
    | .ok true => .invalid ⟨400, errorBody (js "Invalid \"resultRecordCount\" parameter")⟩
    | .ok false =>
      if !truthy (getKey query (js "limit")) then
        .ok (setKey query (js "limit")
          (jsOr (getKey query (js "resultRecordCount"))
            (jsOr (metadata.get (js "maxRecordCount")) (JsValue.nat 2000))))
      else .ok query

/-- The function `execQuery`. -/
def execQuery (ops : Ops) (query : Query) (geojson : JsValue) : Outcome :=
  respond [.query geojson query] (ops.query geojson query)

/-- The function `execGenerateRenderer`. -/
def execGenerateRenderer (ops : Ops) (query : Query) (geojson : JsValue) : Outcome :=
  respond [.generateRenderer geojson query] (ops.generateRenderer geojson query)

/-- The value of `req.url || req.originalUrl`: an absent or empty `url` gives `originalUrl`. -/
def requestUrl (req : Request) : Option JsString :=
  match req.url with
  | some (c :: cs) => some (c :: cs)
  | _ => req.originalUrl

/-- The first piece of `s.split('?')`. -/
def beforeQuestionMark (s : JsString) : JsString := s.takeWhile (fun c => c != 63)

/-- The path `execInfo` classifies: `(req.url || req.originalUrl).split('?')[0]`. -/
def requestPath (req : Request) : Option JsString := (requestUrl req).map beforeQuestionMark

/-- The outcomes `execInfo` chooses between. -/
inductive InfoRoute where
  | restInfo | serverInfo | layerInfo | layersInfo | methodNotSupported | notFound
deriving DecidableEq, Repr

/-- The chain of tests in the `try` block of `execInfo`. -/
def classify (url : JsString) : InfoRoute :=
  if reRestInfo.test url then .restInfo
  else if reServer.test url || reServerInfo.test url || reServerSlash.test url then .serverInfo
  else if reLayer.test url || reLayerInfo.test url || reLayerSlash.test url then .layerInfo
  else if reLayers.test url then .layersInfo
  else if reFeatureServer.test url then .methodNotSupported
  else .notFound

/-- The `try` block of `execInfo` once the path is classified, with the `catch` branch and
the final delivery: the chosen collaborator is called, or the error `Method not supported`
(code 400) or `Not Found` (code 404) is raised and caught. -/
def invokeInfo (ops : Ops) (target : InfoRoute) (query : Query) (params : Params)
    (geojson : JsValue) : Outcome :=
  match target with
  | .restInfo => respond [.restInfo geojson] (ops.restInfo geojson)
  | .serverInfo => respond [.serverInfo geojson params] (ops.serverInfo geojson params)
  | .layerInfo => respond [.layerInfo geojson params] (ops.layerInfo geojson params)
  | .layersInfo => respond [.layersInfo geojson query] (ops.layersInfo geojson query)
  | .methodNotSupported => respond [] (.error ⟨js "Method not supported", some 400⟩)
  | .notFound => respond [] (.error ⟨js "Not Found", some 404⟩)

/-- The function `execInfo`, given the query and params `route` has prepared. With
neither `url` nor `originalUrl` the call of `split` raises a TypeError outside the `try`
block. -/
def execInfo (ops : Ops) (req : Request) (query : Query) (params : Params)
    (geojson : JsValue) : Outcome :=
  match requestPath req with
  | none => ⟨[], [], some .typeError⟩
  | some url => invokeInfo ops (classify url) query params geojson

/-- The source `geojson || {}` as `route` uses it after line 27. -/
def sourceOf (geojson : JsValue) : JsValue := jsOr geojson (.obj [])

/-- The object `geojson.metadata || {}` of line 28. -/
def metadataOf (geojson : JsValue) : JsValue :=
  jsOr ((sourceOf geojson).get (js "metadata")) (.obj [])

/-- The method token `req.params.method`. -/
def methodOf (req : Request) : Option JsString := lookupLast (js "method") (req.params.getD [])

/-- Lines 25-50 of `route`: what follows the lint step. -/
def routeAfterLint (ops : Ops) (req : Request) (geojson : JsValue) : Outcome :=
  match normalize (req.query.getD []) (metadataOf geojson) with
  | .invalid response => ⟨[], [response], none⟩
  | .threw e => ⟨[], [], some e⟩
  | .ok query =>
    if methodOf req = some (js "query") then execQuery ops query (sourceOf geojson)
    else if methodOf req = some (js "generateRenderer") then
      execGenerateRenderer ops query (sourceOf geojson)
    else execInfo ops req query (req.params.getD []) (sourceOf geojson)

/-- What `route` reads from its host: the environment variables `NODE_ENV` and
`KOOP_WARNINGS` (`none` when unset) and the linter `geojsonhint.hint`, which returns its
diagnostics or raises. -/
structure Host where
  nodeEnv : Option JsString
  koopWarnings : Option JsString
  hint : JsValue → Except JsError (List JsValue)

/-- Lines 19-23 of `route`: unless `NODE_ENV` is `production` or `KOOP_WARNINGS` is
`suppress`, the linter is called on `geojson` as received; a warning goes to the console
when it returns diagnostics, and an exception it raises is not caught. -/
def lint (host : Host) (geojson : JsValue) : Except JsError Unit :=
  if host.nodeEnv ≠ some (js "production") ∧ host.koopWarnings ≠ some (js "suppress") then
    match host.hint geojson with
    | .error e => .error e
    | .ok _ => .ok ()
  else .ok ()

/-- The function `route`. An absent `geojson` is `JsValue.undefined`. -/
def route (host : Host) (ops : Ops) (req : Request) (geojson : JsValue) : Outcome :=
  match lint host geojson with
  | .error e => ⟨[], [], some e⟩
  | .ok _ => routeAfterLint ops req geojson

/-! ## Auxiliary notions for the statements -/


/-- The inputs a run of atoms without anchors matches entirely. -/
def Lang (ic : Bool) : List Atom → JsString → Prop
  | [], t => t = []
  | .chr c :: rest, t => ∃ x t', t = x :: t' ∧ charMatches ic c x = true ∧ Lang ic rest t'
  | .digits :: rest, t =>
    ∃ ds t', ds ≠ [] ∧ (∀ d ∈ ds, isDecDigit d = true) ∧ t = ds ++ t' ∧ Lang ic rest t'
  | .eos :: _, _ => False
  | .eosOrQ :: _, _ => False

/-- Atoms other than the two anchors. -/
def Unanchored (atoms : List Atom) : Prop := ∀ a ∈ atoms, a ≠ Atom.eos ∧ a ≠ Atom.eosOrQ

/-- Two strings are equal up to the case of their ASCII letters. -/
def EqIgnoringCase (a b : JsString) : Prop := a.map canonicalize = b.map canonicalize

/-- The string `p` ends with `w`, up to the case of ASCII letters. -/
abbrev EndsWithIgnoringCase (w p : JsString) : Prop :=
  w.map canonicalize <:+ p.map canonicalize

/-- The string `p` contains `w`, up to the case of ASCII letters. -/
abbrev ContainsIgnoringCase (w p : JsString) : Prop :=
  w.map canonicalize <:+: p.map canonicalize

/-- The limit that a rule by presence names: the explicit `limit` when the raw query has
one, else `resultRecordCount` when it has one, else `metadata.maxRecordCount` when the
metadata has one, else 2000. -/
def limitByPresence (rawQuery : RawQuery) (metadata : JsValue) : JsValue :=
  if rawQuery.any (fun p => p.1 == js "limit") then getKey (parseQuery rawQuery) (js "limit")
  else if rawQuery.any (fun p => p.1 == js "resultRecordCount") then
    getKey (parseQuery rawQuery) (js "resultRecordCount")
  else
    match metadata with
    | .obj props => (lookupLast (js "maxRecordCount") props).getD (JsValue.nat 2000)
    | _ => JsValue.nat 2000

/-- A value other than `undefined` and `NaN`. -/
def Defined (v : JsValue) : Prop := v ≠ JsValue.undefined ∧ v ≠ JsValue.num JsNum.nan

/-- The value a parser state has completed, if any, is `Defined`. -/
def DefinedMode : Mode → Prop
  | .after v => Defined v
  | _ => True

/-- What a recorded call returned or raised. -/
def Call.run (ops : Ops) : Call → Except Failure JsValue
  | .query g q => ops.query g q
  | .generateRenderer g q => ops.generateRenderer g q
  | .restInfo g => ops.restInfo g
  | .serverInfo g p => ops.serverInfo g p
  | .layerInfo g p => ops.layerInfo g p
  | .layersInfo g q => ops.layersInfo g q

/-- Collaborators that return a fixed payload each. -/
def sampleOps : Ops :=
  ⟨fun _ _ => .ok (.str (js "features")), fun _ _ => .ok (.str (js "renderer")),
    fun _ => .ok (.str (js "rest")), fun _ _ => .ok (.str (js "server")),
    fun _ _ => .ok (.str (js "layer")), fun _ _ => .ok (.str (js "layers"))⟩

/-- Collaborators that all raise the failure `e`. -/
def failingOps (e : Failure) : Ops :=
  ⟨fun _ _ => .error e, fun _ _ => .error e, fun _ => .error e, fun _ _ => .error e,
    fun _ _ => .error e, fun _ _ => .error e⟩

/-- A host with no environment variable set, whose linter finds nothing to report. -/
def sampleHost : Host := ⟨none, none, fun _ => .ok []⟩

/-- A host with no environment variable set, whose linter raises. -/
def raisingHost : Host := ⟨none, none, fun _ => .error .typeError⟩

/-- The route params of the samples: a layer id and, possibly, a method token. -/
def sampleParams : Option String → Params
  | some m => [(js "id", js "3"), (js "method", js m)]
  | none => [(js "id", js "3")]

/-- A request for `url` with the given query and, possibly, a method token. -/
def sampleRequest (url : String) (query : RawQuery) (method : Option String) : Request :=
  ⟨some (js url), none, some query, some (sampleParams method)⟩

/-- Whether two runs of atoms can be told apart from their literal heads: at the first
position where they differ, two pattern characters differ up to case, or a pattern
character that is no digit meets `\d+`. Two such runs never match at the start of the same
input. -/
def clash : List Atom → List Atom → Bool
  | .chr c :: rest, .chr d :: rest' => canonicalize c != canonicalize d || clash rest rest'
  | .chr c :: _, .digits :: _ => !isDecDigit (canonicalize c)
  | .digits :: _, .chr d :: _ => !isDecDigit (canonicalize d)
  | _, _ => false

/-- The condition of each of the four specific branches of `execInfo`. -/
def branchTest : InfoRoute → JsString → Bool
  | .restInfo, url => reRestInfo.test url
  | .serverInfo, url => reServer.test url || reServerInfo.test url || reServerSlash.test url
  | .layerInfo, url => reLayer.test url || reLayerInfo.test url || reLayerSlash.test url
  | .layersInfo, url => reLayers.test url
  | _, _ => false

/-- The chain of `execInfo` with its specific branches tested in the given order; the
catch-all `/\/FeatureServer/i` and Not Found stay last. -/
def classifyIn (order : List InfoRoute) (url : JsString) : InfoRoute :=
  match order.find? (fun b => branchTest b url) with
  | some b => b
  | none => if reFeatureServer.test url then .methodNotSupported else .notFound

/-- The four specific branches in the order of the source. -/
def sourceOrder : List InfoRoute := [.restInfo, .serverInfo, .layerInfo, .layersInfo]

/-- Lines 31-39 of `route` with the call of `coerceQuery` (line 31) removed: `tryParse` is
applied to the raw string values. -/
def normalizeWithoutCoerce (rawQuery : RawQuery) (metadata : JsValue) : Normalized :=
  let query : Query := rawQuery.map (fun p => (p.1, tryParse (.str p.2)))
  match truthyAndNaN (getKey query (js "limit")) with
  | .error e => .threw e
  | .ok true => .invalid ⟨400, errorBody (js "Invalid \"limit\" parameter")⟩
  | .ok false =>
    match truthyAndNaN (getKey query (js "resultRecordCount")) with
    | .error e => .threw e
    | .ok true => .invalid ⟨400, errorBody (js "Invalid \"resultRecordCount\" parameter")⟩
    | .ok false =>
      if !truthy (getKey query (js "limit")) then
        .ok (setKey query (js "limit")
          (jsOr (getKey query (js "resultRecordCount"))
            (jsOr (metadata.get (js "maxRecordCount")) (JsValue.nat 2000))))
      else .ok query

/-! ## Facts about matching -/

theorem mem_digitTails {r t : JsString} :
    r ∈ digitTails t ↔ ∃ ds, ds ≠ [] ∧ (∀ d ∈ ds, isDecDigit d = true) ∧ t = ds ++ r := by
  induction t with
  | nil =>
    simp only [digitTails, List.not_mem_nil, false_iff]
    rintro ⟨ds, hne, -, h⟩
    cases ds with
    | nil => exact hne rfl
    | cons d ds => simp at h
  | cons x xs ih =>
    simp only [digitTails]
    split
    · rename_i hx
      simp only [List.mem_cons, ih]
      constructor
      · rintro (rfl | ⟨ds, -, hall, rfl⟩)
        · exact ⟨[x], by simp, by simpa using hx, by simp⟩
        · refine ⟨x :: ds, by simp, ?_, by simp⟩
          intro d hd
          rcases List.mem_cons.1 hd with rfl | hd
          · exact hx
          · exact hall d hd
      · rintro ⟨ds, hne, hall, h⟩
        cases ds with
        | nil => exact absurd rfl hne
        | cons d ds =>
          simp only [List.cons_append, List.cons.injEq] at h
          obtain ⟨rfl, rfl⟩ := h
          cases ds with
          | nil => left; simp
          | cons e es =>
            right
            exact ⟨e :: es, by simp, fun d hd => hall d (List.mem_cons_of_mem _ hd), rfl⟩
    · rename_i hx
      simp only [List.not_mem_nil, false_iff]
      rintro ⟨ds, hne, hall, h⟩
      cases ds with
      | nil => exact hne rfl
      | cons d ds =>
        simp only [List.cons_append, List.cons.injEq] at h
        exact hx (h.1 ▸ hall d (List.mem_cons_self _ _))

theorem unanchored_cons {a : Atom} {rest : List Atom} (h : Unanchored (a :: rest)) :
    Unanchored rest := fun b hb => h b (List.mem_cons_of_mem _ hb)

theorem matchHere_eos_iff (ic : Bool) (atoms : List Atom) (h : Unanchored atoms) (t : JsString) :
    matchHere ic (atoms ++ [.eos]) t = true ↔ Lang ic atoms t := by
  induction atoms generalizing t with
  | nil => cases t <;> simp [matchHere, Lang]
  | cons a rest ih =>
    have ih := ih (unanchored_cons h)
    cases a with
    | chr c =>
      cases t with
      | nil => simp [matchHere, Lang]
      | cons x xs =>
        simp only [List.cons_append, matchHere, List.append_eq, Bool.and_eq_true, ih, Lang]
        constructor
        · rintro ⟨hc, hl⟩
          exact ⟨x, xs, rfl, hc, hl⟩
        · rintro ⟨y, t', h, hc, hl⟩
          simp only [List.cons.injEq] at h
          obtain ⟨rfl, rfl⟩ := h
          exact ⟨hc, hl⟩
    | digits =>
      simp only [List.cons_append, matchHere, List.append_eq, List.any_eq_true, ih, Lang,
        mem_digitTails]
      constructor
      · rintro ⟨r, ⟨ds, hne, hall, rfl⟩, hr⟩
        exact ⟨ds, r, hne, hall, rfl, hr⟩
      · rintro ⟨ds, r, hne, hall, rfl, hr⟩
        exact ⟨r, ⟨ds, hne, hall, rfl⟩, hr⟩
    | eos => exact absurd rfl (h _ (List.mem_cons_self _ _)).1
    | eosOrQ => exact absurd rfl (h _ (List.mem_cons_self _ _)).2

theorem matchHere_iff (ic : Bool) (atoms : List Atom) (h : Unanchored atoms) (t : JsString) :
    matchHere ic atoms t = true ↔ ∃ u v, t = u ++ v ∧ Lang ic atoms u := by
  induction atoms generalizing t with
  | nil => simp [matchHere, Lang]
  | cons a rest ih =>
    have ih := ih (unanchored_cons h)
    cases a with
    | chr c =>
      cases t with
      | nil => simp [matchHere, Lang]
      | cons x xs =>
        simp only [matchHere, Bool.and_eq_true, ih, Lang]
        constructor
        · rintro ⟨hc, u, v, rfl, hu⟩
          exact ⟨x :: u, v, rfl, x, u, rfl, hc, hu⟩
        · rintro ⟨u, v, huv, y, u', rfl, hc, hu⟩
          simp only [List.cons_append, List.cons.injEq] at huv
          obtain ⟨rfl, rfl⟩ := huv
          exact ⟨hc, u', v, rfl, hu⟩
    | digits =>
      simp only [matchHere, List.any_eq_true, ih, Lang, mem_digitTails]
      constructor
      · rintro ⟨r, ⟨ds, hne, hall, rfl⟩, u, v, rfl, hu⟩
        exact ⟨ds ++ u, v, by simp, ds, u, hne, hall, rfl, hu⟩
      · rintro ⟨u, v, rfl, ds, u', hne, hall, rfl, hu⟩
        exact ⟨u' ++ v, ⟨ds, hne, hall, by simp⟩, u', v, rfl, hu⟩
    | eos => exact absurd rfl (h _ (List.mem_cons_self _ _)).1
    | eosOrQ => exact absurd rfl (h _ (List.mem_cons_self _ _)).2

theorem lang_append (ic : Bool) (as bs : List Atom) (t : JsString) :
    Lang ic (as ++ bs) t ↔ ∃ u v, t = u ++ v ∧ Lang ic as u ∧ Lang ic bs v := by
  induction as generalizing t with
  | nil =>
    simp only [List.nil_append, Lang]
    constructor
    · intro h
      exact ⟨[], t, rfl, rfl, h⟩
    · rintro ⟨u, v, rfl, rfl, h⟩
      exact h
  | cons a rest ih =>
    cases a with
    | chr c =>
      simp only [List.cons_append, Lang, List.append_eq, ih]
      constructor
      · rintro ⟨x, t', rfl, hc, u, v, rfl, hu, hv⟩
        exact ⟨x :: u, v, rfl, ⟨x, u, rfl, hc, hu⟩, hv⟩
      · rintro ⟨u, v, rfl, ⟨x, u', rfl, hc, hu⟩, hv⟩
        exact ⟨x, u' ++ v, rfl, hc, u', v, rfl, hu, hv⟩
    | digits =>
      simp only [List.cons_append, Lang, List.append_eq, ih]
      constructor
      · rintro ⟨ds, t', hne, hall, rfl, u, v, rfl, hu, hv⟩
        exact ⟨ds ++ u, v, by simp, ⟨ds, u, hne, hall, rfl, hu⟩, hv⟩
      · rintro ⟨u, v, rfl, ⟨ds, u', hne, hall, rfl, hu⟩, hv⟩
        exact ⟨ds, u' ++ v, hne, hall, by simp, u', v, rfl, hu, hv⟩
    | eos => simp [Lang]
    | eosOrQ => simp [Lang]

theorem lang_single_reverse (ic : Bool) (a : Atom) (t : JsString) :
    Lang ic [a] t.reverse ↔ Lang ic [a] t := by
  cases a with
  | chr c =>
    simp only [Lang]
    constructor
    · rintro ⟨x, t', h, hc, rfl⟩
      have : t = [x] := by simpa using congrArg List.reverse h
      exact ⟨x, [], this, hc, rfl⟩
    · rintro ⟨x, t', rfl, hc, rfl⟩
      exact ⟨x, [], rfl, hc, rfl⟩
  | digits =>
    simp only [Lang]
    constructor
    · rintro ⟨ds, t', hne, hall, h, rfl⟩
      have : t = ds.reverse := by simpa using congrArg List.reverse h
      exact ⟨ds.reverse, [], by simpa using hne, by simpa using hall, by simpa using this, rfl⟩
    · rintro ⟨ds, t', hne, hall, rfl, rfl⟩
      exact ⟨ds.reverse, [], by simpa using hne, by simpa using hall, by simp, rfl⟩
  | eos => simp [Lang]
  | eosOrQ => simp [Lang]

theorem lang_reverse (ic : Bool) (atoms : List Atom) (t : JsString) :
    Lang ic atoms.reverse t.reverse ↔ Lang ic atoms t := by
  induction atoms generalizing t with
  | nil => simp [Lang]
  | cons a rest ih =>
    rw [List.reverse_cons, lang_append, show a :: rest = [a] ++ rest from rfl, lang_append]
    constructor
    · rintro ⟨u, v, h, hu, hv⟩
      have ht : t = v.reverse ++ u.reverse := by simpa using congrArg List.reverse h
      refine ⟨v.reverse, u.reverse, ht, (lang_single_reverse ic a v).2 hv, ?_⟩
      exact (ih u.reverse).1 (by simpa using hu)
    · rintro ⟨u, v, rfl, hu, hv⟩
      exact ⟨v.reverse, u.reverse, by simp, (ih v).2 hv, (lang_single_reverse ic a u).2 hu⟩

theorem searchFrom_iff (ic : Bool) (atoms : List Atom) (s : JsString) :
    searchFrom ic atoms s = true ↔ ∃ pre t, s = pre ++ t ∧ matchHere ic atoms t = true := by
  induction s with
  | nil =>
    simp only [searchFrom]
    constructor
    · intro h
      exact ⟨[], [], rfl, h⟩
    · rintro ⟨pre, t, h, hm⟩
      have ht : t = [] := (List.append_eq_nil.1 h.symm).2
      exact ht ▸ hm
  | cons x xs ih =>
    simp only [searchFrom, Bool.or_eq_true, ih]
    constructor
    · rintro (h | ⟨pre, t, rfl, h⟩)
      · exact ⟨[], x :: xs, rfl, h⟩
      · exact ⟨x :: pre, t, rfl, h⟩
    · rintro ⟨pre, t, h, hm⟩
      cases pre with
      | nil => left; simpa using h ▸ hm
      | cons y ys =>
        simp only [List.cons_append, List.cons.injEq] at h
        exact Or.inr ⟨ys, t, h.2, hm⟩

/-- An end-anchored pattern matches somewhere in the input exactly when the reversed pattern
matches at the start of the reversed input. -/
theorem searchFrom_eos (ic : Bool) (atoms : List Atom) (h : Unanchored atoms) (s : JsString) :
    searchFrom ic (atoms ++ [.eos]) s = matchHere ic atoms.reverse s.reverse := by
  have hr : Unanchored atoms.reverse := fun a ha => h a (List.mem_reverse.1 ha)
  rw [Bool.eq_iff_iff, searchFrom_iff, matchHere_iff ic _ hr]
  constructor
  · rintro ⟨pre, t, rfl, hm⟩
    exact ⟨t.reverse, pre.reverse, by simp,
      (lang_reverse ic atoms t).2 ((matchHere_eos_iff ic atoms h t).1 hm)⟩
  · rintro ⟨u, v, huv, hu⟩
    have hs : s = v.reverse ++ u.reverse := by simpa using congrArg List.reverse huv
    refine ⟨v.reverse, u.reverse, hs, (matchHere_eos_iff ic atoms h _).2 ?_⟩
    exact (lang_reverse ic atoms u.reverse).1 (by simpa using hu)

theorem digitTails_no_question {t r : JsString} (ht : 63 ∉ t) (hr : r ∈ digitTails t) :
    63 ∉ r := by
  obtain ⟨ds, -, -, rfl⟩ := mem_digitTails.1 hr
  exact fun h => ht (List.mem_append_right _ h)

theorem matchHere_eosOrQ (ic : Bool) (atoms : List Atom) (t : JsString) (ht : 63 ∉ t) :
    matchHere ic (atoms ++ [.eosOrQ]) t = matchHere ic (atoms ++ [.eos]) t := by
  induction atoms generalizing t with
  | nil =>
    cases t with
    | nil => simp [matchHere]
    | cons x xs =>
      have hx : x ≠ 63 := fun hx => ht (hx ▸ List.mem_cons_self _ _)
      simp only [List.nil_append, matchHere, List.isEmpty_cons, Bool.false_and, Bool.false_or]
      split
      · rename_i heq
        simp only [List.cons.injEq] at heq
        exact absurd heq.1 hx
      · rfl
  | cons a rest ih =>
    cases a with
    | chr c =>
      cases t with
      | nil => simp [matchHere]
      | cons x xs =>
        simp only [List.cons_append, matchHere, List.append_eq]
        rw [ih xs (fun h => ht (List.mem_cons_of_mem _ h))]
    | digits =>
      simp only [List.cons_append, matchHere, List.append_eq]
      rw [Bool.eq_iff_iff, List.any_eq_true, List.any_eq_true]
      constructor
      · rintro ⟨r, hr, hm⟩
        exact ⟨r, hr, by rw [← ih r (digitTails_no_question ht hr)]; exact hm⟩
      · rintro ⟨r, hr, hm⟩
        exact ⟨r, hr, by rw [ih r (digitTails_no_question ht hr)]; exact hm⟩
    | eos =>
      simp only [List.cons_append, matchHere, List.append_eq]
      rw [ih t ht]
    | eosOrQ =>
      cases t with
      | nil => simp only [List.cons_append, matchHere, List.append_eq]; rw [ih [] ht]
      | cons x xs =>
        have hx : x ≠ 63 := fun hx => ht (hx ▸ List.mem_cons_self _ _)
        simp only [List.cons_append, matchHere, List.append_eq, List.isEmpty_cons,
          Bool.false_and, Bool.false_or]
        split
        · rename_i heq
          simp only [List.cons.injEq] at heq
          exact absurd heq.1 hx
        · rfl

theorem searchFrom_eosOrQ (ic : Bool) (atoms : List Atom) (s : JsString) (hs : 63 ∉ s) :
    searchFrom ic (atoms ++ [.eosOrQ]) s = searchFrom ic (atoms ++ [.eos]) s := by
  induction s with
  | nil => simp only [searchFrom]; exact matchHere_eosOrQ ic atoms [] hs
  | cons x xs ih =>
    simp only [searchFrom]
    rw [matchHere_eosOrQ ic atoms (x :: xs) hs, ih (fun h => hs (List.mem_cons_of_mem _ h))]


/-! ## The patterns of `execInfo`, written out -/

theorem js_restInfo : js "/rest/info" = [47, 114, 101, 115, 116, 47, 105, 110, 102, 111] := rfl
theorem js_featureServer : js "/FeatureServer" = [47, 70, 101, 97, 116, 117, 114, 101, 83, 101, 114, 118, 101, 114] := rfl
theorem js_featureServerInfo : js "/FeatureServer/info" = [47, 70, 101, 97, 116, 117, 114, 101, 83, 101, 114, 118, 101, 114, 47, 105, 110, 102, 111] := rfl
theorem js_featureServerSlash : js "/FeatureServer/" = [47, 70, 101, 97, 116, 117, 114, 101, 83, 101, 114, 118, 101, 114, 47] := rfl
theorem js_featureServerLayers : js "/FeatureServer/layers" = [47, 70, 101, 97, 116, 117, 114, 101, 83, 101, 114, 118, 101, 114, 47, 108, 97, 121, 101, 114, 115] := rfl
theorem js_info : js "/info" = [47, 105, 110, 102, 111] := rfl
theorem js_slash : js "/" = [47] := rfl

theorem test_reRestInfo (p : JsString) :
    reRestInfo.test p = matchHere true
      [.chr 111, .chr 102, .chr 110, .chr 105, .chr 47, .chr 116, .chr 115, .chr 101, .chr 114, .chr 47] p.reverse :=
  searchFrom_eos true
    [.chr 47, .chr 114, .chr 101, .chr 115, .chr 116, .chr 47, .chr 105, .chr 110, .chr 102, .chr 111] (by unfold Unanchored; decide) p

theorem test_reServer (p : JsString) :
    reServer.test p = matchHere true
      [.chr 114, .chr 101, .chr 118, .chr 114, .chr 101, .chr 83, .chr 101, .chr 114, .chr 117, .chr 116, .chr 97, .chr 101, .chr 70, .chr 47] p.reverse :=
  searchFrom_eos true
    [.chr 47, .chr 70, .chr 101, .chr 97, .chr 116, .chr 117, .chr 114, .chr 101, .chr 83, .chr 101, .chr 114, .chr 118, .chr 101, .chr 114] (by unfold Unanchored; decide) p

theorem test_reServerInfo (p : JsString) :
    reServerInfo.test p = matchHere true
      [.chr 111, .chr 102, .chr 110, .chr 105, .chr 47, .chr 114, .chr 101, .chr 118, .chr 114, .chr 101, .chr 83, .chr 101, .chr 114, .chr 117, .chr 116, .chr 97, .chr 101, .chr 70, .chr 47] p.reverse :=
  searchFrom_eos true
    [.chr 47, .chr 70, .chr 101, .chr 97, .chr 116, .chr 117, .chr 114, .chr 101, .chr 83, .chr 101, .chr 114, .chr 118, .chr 101, .chr 114, .chr 47, .chr 105, .chr 110, .chr 102, .chr 111] (by unfold Unanchored; decide) p

theorem test_reServerSlash (p : JsString) (hp : 63 ∉ p) :
    reServerSlash.test p = matchHere false
      [.chr 47, .chr 114, .chr 101, .chr 118, .chr 114, .chr 101, .chr 83, .chr 101, .chr 114, .chr 117, .chr 116, .chr 97, .chr 101, .chr 70, .chr 47] p.reverse :=
  (searchFrom_eosOrQ false
    [.chr 47, .chr 70, .chr 101, .chr 97, .chr 116, .chr 117, .chr 114, .chr 101, .chr 83, .chr 101, .chr 114, .chr 118, .chr 101, .chr 114, .chr 47] p hp).trans
  (searchFrom_eos false
    [.chr 47, .chr 70, .chr 101, .chr 97, .chr 116, .chr 117, .chr 114, .chr 101, .chr 83, .chr 101, .chr 114, .chr 118, .chr 101, .chr 114, .chr 47] (by unfold Unanchored; decide) p)

theorem test_reLayer (p : JsString) :
    reLayer.test p = matchHere true
      [.digits, .chr 47, .chr 114, .chr 101, .chr 118, .chr 114, .chr 101, .chr 83, .chr 101, .chr 114, .chr 117, .chr 116, .chr 97, .chr 101, .chr 70, .chr 47] p.reverse :=
  searchFrom_eos true
    [.chr 47, .chr 70, .chr 101, .chr 97, .chr 116, .chr 117, .chr 114, .chr 101, .chr 83, .chr 101, .chr 114, .chr 118, .chr 101, .chr 114, .chr 47, .digits] (by unfold Unanchored; decide) p

theorem test_reLayerInfo (p : JsString) :
    reLayerInfo.test p = matchHere true
      [.chr 111, .chr 102, .chr 110, .chr 105, .chr 47, .digits, .chr 47, .chr 114, .chr 101, .chr 118, .chr 114, .chr 101, .chr 83, .chr 101, .chr 114, .chr 117, .chr 116, .chr 97, .chr 101, .chr 70, .chr 47] p.reverse :=
  searchFrom_eos true
    [.chr 47, .chr 70, .chr 101, .chr 97, .chr 116, .chr 117, .chr 114, .chr 101, .chr 83, .chr 101, .chr 114, .chr 118, .chr 101, .chr 114, .chr 47, .digits, .chr 47, .chr 105, .chr 110, .chr 102, .chr 111] (by unfold Unanchored; decide) p

theorem test_reLayerSlash (p : JsString) (hp : 63 ∉ p) :
    reLayerSlash.test p = matchHere false
      [.chr 47, .digits, .chr 47, .chr 114, .chr 101, .chr 118, .chr 114, .chr 101, .chr 83, .chr 101, .chr 114, .chr 117, .chr 116, .chr 97, .chr 101, .chr 70, .chr 47] p.reverse :=
  (searchFrom_eosOrQ false
    [.chr 47, .chr 70, .chr 101, .chr 97, .chr 116, .chr 117, .chr 114, .chr 101, .chr 83, .chr 101, .chr 114, .chr 118, .chr 101, .chr 114, .chr 47, .digits, .chr 47] p hp).trans
  (searchFrom_eos false
    [.chr 47, .chr 70, .chr 101, .chr 97, .chr 116, .chr 117, .chr 114, .chr 101, .chr 83, .chr 101, .chr 114, .chr 118, .chr 101, .chr 114, .chr 47, .digits, .chr 47] (by unfold Unanchored; decide) p)

theorem test_reLayers (p : JsString) :
    reLayers.test p = matchHere true
      [.chr 115, .chr 114, .chr 101, .chr 121, .chr 97, .chr 108, .chr 47, .chr 114, .chr 101, .chr 118, .chr 114, .chr 101, .chr 83, .chr 101, .chr 114, .chr 117, .chr 116, .chr 97, .chr 101, .chr 70, .chr 47] p.reverse :=
  searchFrom_eos true
    [.chr 47, .chr 70, .chr 101, .chr 97, .chr 116, .chr 117, .chr 114, .chr 101, .chr 83, .chr 101, .chr 114, .chr 118, .chr 101, .chr 114, .chr 47, .chr 108, .chr 97, .chr 121, .chr 101, .chr 114, .chr 115] (by unfold Unanchored; decide) p

theorem searchFrom_append (ic : Bool) (atoms : List Atom) (pre t : JsString)
    (h : matchHere ic atoms t = true) : searchFrom ic atoms (pre ++ t) = true :=
  (searchFrom_iff ic atoms _).2 ⟨pre, t, rfl, h⟩

theorem matchHere_digits_append (ic : Bool) (rest : List Atom) (ds r : JsString)
    (hne : ds ≠ []) (hall : ∀ d ∈ ds, isDecDigit d = true) (h : matchHere ic rest r = true) :
    matchHere ic (.digits :: rest) (ds ++ r) = true := by
  simp only [matchHere, List.any_eq_true]
  exact ⟨r, mem_digitTails.2 ⟨ds, hne, hall, rfl⟩, h⟩

theorem charMatches_digit (ic : Bool) (c d : Nat) (hc : c < 48 ∨ 57 < c)
    (hd : isDecDigit d = true) : charMatches ic c d = false := by
  simp only [isDecDigit, Bool.and_eq_true, decide_eq_true_eq] at hd
  cases ic
  · simp only [charMatches, if_false, Bool.false_eq_true, beq_eq_false_iff_ne, ne_eq]
    omega
  · simp only [charMatches, canonicalize, if_true, beq_eq_false_iff_ne, ne_eq]
    split_ifs <;> omega

theorem matchHere_chr_digits (ic : Bool) (c : Nat) (rest : List Atom) (ds r : JsString)
    (hc : c < 48 ∨ 57 < c) (hne : ds ≠ []) (hall : ∀ d ∈ ds, isDecDigit d = true) :
    matchHere ic (.chr c :: rest) (ds ++ r) = false := by
  cases ds with
  | nil => exact absurd rfl hne
  | cons d ds =>
    simp only [List.cons_append, matchHere,
      charMatches_digit ic c d hc (hall d (List.mem_cons_self _ _)), Bool.false_and]

theorem beforeQuestionMark_no_question (s : JsString) : 63 ∉ beforeQuestionMark s := by
  intro h
  have := List.mem_takeWhile_imp h
  simp at this


theorem matchHere_chr_cons (ic : Bool) (c : Nat) (rest : List Atom) (x : Nat) (xs : JsString) :
    matchHere ic (.chr c :: rest) (x :: xs) = (charMatches ic c x && matchHere ic rest xs) := rfl

theorem matchHere_digits_cons (ic : Bool) (rest : List Atom) (x : Nat) (xs : JsString)
    (hx : isDecDigit x = false) : matchHere ic (.digits :: rest) (x :: xs) = false := by
  simp [matchHere, digitTails, hx]

/-! ## Classification of the path shapes -/

theorem classify_layer (pre ds : JsString) (hne : ds ≠ [])
    (hall : ∀ d ∈ ds, isDecDigit d = true) (hq : 63 ∉ pre ++ js "/FeatureServer/" ++ ds) :
    classify (pre ++ js "/FeatureServer/" ++ ds) = .layerInfo := by
  have hrev : (pre ++ js "/FeatureServer/" ++ ds).reverse
      = ds.reverse ++ (47 :: 114 :: 101 :: 118 :: 114 :: 101 :: 83 :: 101 :: 114 :: 117 :: 116 :: 97 :: 101 :: 70 :: 47 :: pre.reverse) := by
    simp [js_featureServerSlash]
  have hne' : ds.reverse ≠ [] := by simpa using hne
  have hall' : ∀ d ∈ ds.reverse, isDecDigit d = true := by simpa using hall
  have h_reRestInfo : reRestInfo.test (pre ++ js "/FeatureServer/" ++ ds) = false := by
    rw [test_reRestInfo, hrev]
    exact matchHere_chr_digits _ _ _ _ _ (by decide) hne' hall'
  have h_reServer : reServer.test (pre ++ js "/FeatureServer/" ++ ds) = false := by
    rw [test_reServer, hrev]
    exact matchHere_chr_digits _ _ _ _ _ (by decide) hne' hall'
  have h_reServerInfo : reServerInfo.test (pre ++ js "/FeatureServer/" ++ ds) = false := by
    rw [test_reServerInfo, hrev]
    exact matchHere_chr_digits _ _ _ _ _ (by decide) hne' hall'
  have h_reServerSlash : reServerSlash.test (pre ++ js "/FeatureServer/" ++ ds) = false := by
    rw [test_reServerSlash _ hq, hrev]
    exact matchHere_chr_digits _ _ _ _ _ (by decide) hne' hall'
  have h_reLayer : reLayer.test (pre ++ js "/FeatureServer/" ++ ds) = true := by
    rw [test_reLayer, hrev]
    exact matchHere_digits_append _ _ _ _ hne' hall' rfl
  unfold classify
  rw [h_reRestInfo, h_reServer, h_reServerInfo, h_reServerSlash, h_reLayer]
  rfl

theorem classify_layer_info (pre ds : JsString) (hne : ds ≠ [])
    (hall : ∀ d ∈ ds, isDecDigit d = true) (hq : 63 ∉ pre ++ js "/FeatureServer/" ++ ds ++ js "/info") :
    classify (pre ++ js "/FeatureServer/" ++ ds ++ js "/info") = .layerInfo := by
  have hrev : (pre ++ js "/FeatureServer/" ++ ds ++ js "/info").reverse
      = 111 :: 102 :: 110 :: 105 :: 47 :: (ds.reverse ++ (47 :: 114 :: 101 :: 118 :: 114 :: 101 :: 83 :: 101 :: 114 :: 117 :: 116 :: 97 :: 101 :: 70 :: 47 :: pre.reverse)) := by
    simp [js_featureServerSlash, js_info]
  have hne' : ds.reverse ≠ [] := by simpa using hne
  have hall' : ∀ d ∈ ds.reverse, isDecDigit d = true := by simpa using hall
  have h_reRestInfo : reRestInfo.test (pre ++ js "/FeatureServer/" ++ ds ++ js "/info") = false := by
    rw [test_reRestInfo, hrev]
    simp [matchHere_chr_cons, matchHere_digits_cons, isDecDigit, charMatches, canonicalize,
      matchHere_chr_digits true 116 _ _ _ (by decide) hne' hall']
  have h_reServer : reServer.test (pre ++ js "/FeatureServer/" ++ ds ++ js "/info") = false := by
    rw [test_reServer, hrev]
    simp [matchHere_chr_cons, matchHere_digits_cons, isDecDigit, charMatches, canonicalize]
  have h_reServerInfo : reServerInfo.test (pre ++ js "/FeatureServer/" ++ ds ++ js "/info") = false := by
    rw [test_reServerInfo, hrev]
    simp [matchHere_chr_cons, matchHere_digits_cons, isDecDigit, charMatches, canonicalize,
      matchHere_chr_digits true 114 _ _ _ (by decide) hne' hall']
  have h_reServerSlash : reServerSlash.test (pre ++ js "/FeatureServer/" ++ ds ++ js "/info") = false := by
    rw [test_reServerSlash _ hq, hrev]
    simp [matchHere_chr_cons, matchHere_digits_cons, isDecDigit, charMatches, canonicalize]
  have h_reLayer : reLayer.test (pre ++ js "/FeatureServer/" ++ ds ++ js "/info") = false := by
    rw [test_reLayer, hrev]
    simp [matchHere_chr_cons, matchHere_digits_cons, isDecDigit, charMatches, canonicalize]
  have h_reLayerInfo : reLayerInfo.test (pre ++ js "/FeatureServer/" ++ ds ++ js "/info") = true := by
    rw [test_reLayerInfo, hrev]
    exact matchHere_digits_append _ _ _ _ hne' hall' rfl
  unfold classify
  rw [h_reRestInfo, h_reServer, h_reServerInfo, h_reServerSlash, h_reLayer, h_reLayerInfo]
  rfl

theorem classify_layer_slash (pre ds : JsString) (hne : ds ≠ [])
    (hall : ∀ d ∈ ds, isDecDigit d = true) (hq : 63 ∉ pre ++ js "/FeatureServer/" ++ ds ++ js "/") :
    classify (pre ++ js "/FeatureServer/" ++ ds ++ js "/") = .layerInfo := by
  have hrev : (pre ++ js "/FeatureServer/" ++ ds ++ js "/").reverse
      = 47 :: (ds.reverse ++ (47 :: 114 :: 101 :: 118 :: 114 :: 101 :: 83 :: 101 :: 114 :: 117 :: 116 :: 97 :: 101 :: 70 :: 47 :: pre.reverse)) := by
    simp [js_featureServerSlash, js_slash]
  have hne' : ds.reverse ≠ [] := by simpa using hne
  have hall' : ∀ d ∈ ds.reverse, isDecDigit d = true := by simpa using hall
  have h_reRestInfo : reRestInfo.test (pre ++ js "/FeatureServer/" ++ ds ++ js "/") = false := by
    rw [test_reRestInfo, hrev]
    simp [matchHere_chr_cons, matchHere_digits_cons, isDecDigit, charMatches, canonicalize]
  have h_reServer : reServer.test (pre ++ js "/FeatureServer/" ++ ds ++ js "/") = false := by
    rw [test_reServer, hrev]
    simp [matchHere_chr_cons, matchHere_digits_cons, isDecDigit, charMatches, canonicalize]
  have h_reServerInfo : reServerInfo.test (pre ++ js "/FeatureServer/" ++ ds ++ js "/") = false := by
    rw [test_reServerInfo, hrev]
    simp [matchHere_chr_cons, matchHere_digits_cons, isDecDigit, charMatches, canonicalize]
  have h_reServerSlash : reServerSlash.test (pre ++ js "/FeatureServer/" ++ ds ++ js "/") = false := by
    rw [test_reServerSlash _ hq, hrev]
    simp [matchHere_chr_cons, matchHere_digits_cons, isDecDigit, charMatches, canonicalize,
      matchHere_chr_digits false 114 _ _ _ (by decide) hne' hall']
  have h_reLayer : reLayer.test (pre ++ js "/FeatureServer/" ++ ds ++ js "/") = false := by
    rw [test_reLayer, hrev]
    simp [matchHere_chr_cons, matchHere_digits_cons, isDecDigit, charMatches, canonicalize]
  have h_reLayerInfo : reLayerInfo.test (pre ++ js "/FeatureServer/" ++ ds ++ js "/") = false := by
    rw [test_reLayerInfo, hrev]
    simp [matchHere_chr_cons, matchHere_digits_cons, isDecDigit, charMatches, canonicalize]
  have h_reLayerSlash : reLayerSlash.test (pre ++ js "/FeatureServer/" ++ ds ++ js "/") = true := by
    rw [test_reLayerSlash _ hq, hrev]
    exact matchHere_digits_append _ _ _ _ hne' hall' rfl
  unfold classify
  rw [h_reRestInfo, h_reServer, h_reServerInfo, h_reServerSlash, h_reLayer, h_reLayerInfo,
    h_reLayerSlash]
  rfl

theorem classify_server (pre : JsString) :
    classify (pre ++ js "/FeatureServer") = .serverInfo := by
  have hrev : (pre ++ js "/FeatureServer").reverse = 114 :: 101 :: 118 :: 114 :: 101 :: 83 :: 101 :: 114 :: 117 :: 116 :: 97 :: 101 :: 70 :: 47 :: pre.reverse := by
    simp [js_featureServer]
  have h_reRestInfo : reRestInfo.test (pre ++ js "/FeatureServer") = false := by
    rw [test_reRestInfo, hrev]
    simp [matchHere_chr_cons, matchHere_digits_cons, isDecDigit, charMatches, canonicalize]
  have h_reServer : reServer.test (pre ++ js "/FeatureServer") = true :=
    searchFrom_append _ _ pre _ (by decide)
  unfold classify
  simp only [h_reRestInfo, h_reServer, Bool.or_true, Bool.true_or, Bool.or_false,
    Bool.false_eq_true, if_false, if_true]

theorem classify_server_info (pre : JsString) :
    classify (pre ++ js "/FeatureServer/info") = .serverInfo := by
  have hrev : (pre ++ js "/FeatureServer/info").reverse = 111 :: 102 :: 110 :: 105 :: 47 :: 114 :: 101 :: 118 :: 114 :: 101 :: 83 :: 101 :: 114 :: 117 :: 116 :: 97 :: 101 :: 70 :: 47 :: pre.reverse := by
    simp [js_featureServerInfo]
  have h_reRestInfo : reRestInfo.test (pre ++ js "/FeatureServer/info") = false := by
    rw [test_reRestInfo, hrev]
    simp [matchHere_chr_cons, matchHere_digits_cons, isDecDigit, charMatches, canonicalize]
  have h_reServerInfo : reServerInfo.test (pre ++ js "/FeatureServer/info") = true :=
    searchFrom_append _ _ pre _ (by decide)
  unfold classify
  simp only [h_reRestInfo, h_reServerInfo, Bool.or_true, Bool.true_or, Bool.or_false,
    Bool.false_eq_true, if_false, if_true]

theorem classify_server_slash (pre : JsString) :
    classify (pre ++ js "/FeatureServer/") = .serverInfo := by
  have hrev : (pre ++ js "/FeatureServer/").reverse = 47 :: 114 :: 101 :: 118 :: 114 :: 101 :: 83 :: 101 :: 114 :: 117 :: 116 :: 97 :: 101 :: 70 :: 47 :: pre.reverse := by
    simp [js_featureServerSlash]
  have h_reRestInfo : reRestInfo.test (pre ++ js "/FeatureServer/") = false := by
    rw [test_reRestInfo, hrev]
    simp [matchHere_chr_cons, matchHere_digits_cons, isDecDigit, charMatches, canonicalize]
  have h_reServerSlash : reServerSlash.test (pre ++ js "/FeatureServer/") = true :=
    searchFrom_append _ _ pre _ (by decide)
  unfold classify
  simp only [h_reRestInfo, h_reServerSlash, Bool.or_true, Bool.true_or, Bool.or_false,
    Bool.false_eq_true, if_false, if_true]

theorem classify_layers (pre : JsString) (hq : 63 ∉ pre ++ js "/FeatureServer/layers") :
    classify (pre ++ js "/FeatureServer/layers") = .layersInfo := by
  have hrev : (pre ++ js "/FeatureServer/layers").reverse = 115 :: 114 :: 101 :: 121 :: 97 :: 108 :: 47 :: 114 :: 101 :: 118 :: 114 :: 101 :: 83 :: 101 :: 114 :: 117 :: 116 :: 97 :: 101 :: 70 :: 47 :: pre.reverse := by
    simp [js_featureServerLayers]
  have h_reRestInfo : reRestInfo.test (pre ++ js "/FeatureServer/layers") = false := by
    rw [test_reRestInfo, hrev]
    simp [matchHere_chr_cons, matchHere_digits_cons, isDecDigit, charMatches, canonicalize]
  have h_reServer : reServer.test (pre ++ js "/FeatureServer/layers") = false := by
    rw [test_reServer, hrev]
    simp [matchHere_chr_cons, matchHere_digits_cons, isDecDigit, charMatches, canonicalize]
  have h_reServerInfo : reServerInfo.test (pre ++ js "/FeatureServer/layers") = false := by
    rw [test_reServerInfo, hrev]
    simp [matchHere_chr_cons, matchHere_digits_cons, isDecDigit, charMatches, canonicalize]
  have h_reServerSlash : reServerSlash.test (pre ++ js "/FeatureServer/layers") = false := by
    rw [test_reServerSlash _ hq, hrev]
    simp [matchHere_chr_cons, matchHere_digits_cons, isDecDigit, charMatches, canonicalize]
  have h_reLayer : reLayer.test (pre ++ js "/FeatureServer/layers") = false := by
    rw [test_reLayer, hrev]
    simp [matchHere_chr_cons, matchHere_digits_cons, isDecDigit, charMatches, canonicalize]
  have h_reLayerInfo : reLayerInfo.test (pre ++ js "/FeatureServer/layers") = false := by
    rw [test_reLayerInfo, hrev]
    simp [matchHere_chr_cons, matchHere_digits_cons, isDecDigit, charMatches, canonicalize]
  have h_reLayerSlash : reLayerSlash.test (pre ++ js "/FeatureServer/layers") = false := by
    rw [test_reLayerSlash _ hq, hrev]
    simp [matchHere_chr_cons, matchHere_digits_cons, isDecDigit, charMatches, canonicalize]
  have h_reLayers : reLayers.test (pre ++ js "/FeatureServer/layers") = true :=
    searchFrom_append _ _ pre _ (by decide)
  unfold classify
  simp only [h_reRestInfo, h_reServer, h_reServerInfo, h_reServerSlash, h_reLayer, h_reLayerInfo, h_reLayerSlash, h_reLayers, Bool.or_true, Bool.true_or, Bool.or_false,
    Bool.false_eq_true, if_false, if_true]

/-- A path that contains `/FeatureServer` matches the catch-all pattern. -/
theorem test_reFeatureServer_of_contains (p : JsString) (h : js "/FeatureServer" <:+: p) :
    reFeatureServer.test p = true := by
  obtain ⟨pre, post, rfl⟩ := h
  rw [List.append_assoc]
  exact searchFrom_append _ _ pre _ (by rw [js_featureServer]; rfl)

theorem matchHere_chars (ic : Bool) (cs : JsString) (rest : List Atom) (t : JsString)
    (h : matchHere ic (cs.map Atom.chr ++ rest) t = true) :
    ∃ mid post, t = mid ++ post ∧ EqIgnoringCase mid cs ∧ matchHere ic rest post = true := by
  induction cs generalizing t with
  | nil => exact ⟨[], t, rfl, rfl, h⟩
  | cons c cs ih =>
    cases t with
    | nil => simp [matchHere] at h
    | cons x xs =>
      simp only [List.map_cons, List.cons_append, matchHere, List.append_eq,
        Bool.and_eq_true] at h
      obtain ⟨mid, post, rfl, hmid, hpost⟩ := ih xs h.2
      refine ⟨x :: mid, post, rfl, ?_, hpost⟩
      have hx : canonicalize x = canonicalize c := by
        have h1 := h.1
        cases ic
        · simp only [charMatches, if_false, Bool.false_eq_true, beq_iff_eq] at h1
          rw [h1]
        · simpa [charMatches] using h1
      simp only [EqIgnoringCase, List.map_cons, hx] at hmid ⊢
      rw [hmid]

/-- Every pattern of `execInfo` that starts with `/FeatureServer` matches only paths that
contain `/FeatureServer` up to case. -/
theorem contains_of_search (ic : Bool) (rest : List Atom) (p : JsString)
    (h : searchFrom ic ((js "/FeatureServer").map Atom.chr ++ rest) p = true) :
    ContainsIgnoringCase (js "/FeatureServer") p := by
  obtain ⟨pre, t, rfl, hm⟩ := (searchFrom_iff _ _ _).1 h
  obtain ⟨mid, post, rfl, hmid, -⟩ := matchHere_chars ic _ rest t hm
  refine ⟨pre.map canonicalize, post.map canonicalize, ?_⟩
  simp only [EqIgnoringCase] at hmid
  simp [hmid]

/-- The pattern `/\/rest\/info$/i` matches only paths that end with `/rest/info` up to case. -/
theorem endsWith_of_test_reRestInfo (p : JsString) (h : reRestInfo.test p = true) :
    EndsWithIgnoringCase (js "/rest/info") p := by
  obtain ⟨pre, t, rfl, hm⟩ := (searchFrom_iff _ _ _).1 h
  obtain ⟨mid, post, rfl, hmid, hpost⟩ := matchHere_chars true (js "/rest/info") [.eos] t hm
  have : post = [] := by
    cases post with
    | nil => rfl
    | cons x xs => simp [matchHere] at hpost
  subst this
  refine ⟨pre.map canonicalize, ?_⟩
  simp only [EqIgnoringCase] at hmid
  simp [hmid]

/-- A path that neither ends with `/rest/info` nor contains `/FeatureServer`, up to case,
is classified as not found. -/
theorem classify_notFound (p : JsString)
    (hrest : ¬ EndsWithIgnoringCase (js "/rest/info") p)
    (hfs : ¬ ContainsIgnoringCase (js "/FeatureServer") p) :
    classify p = .notFound := by
  have h1 : reRestInfo.test p = false :=
    Bool.eq_false_iff.2 (fun h => hrest (endsWith_of_test_reRestInfo p h))
  have h2 : reServer.test p = false :=
    Bool.eq_false_iff.2 (fun h => hfs (contains_of_search true [Atom.eos] p h))
  have h3 : reServerInfo.test p = false :=
    Bool.eq_false_iff.2 (fun h => hfs (contains_of_search true (chars "/info" ++ [Atom.eos]) p h))
  have h4 : reServerSlash.test p = false :=
    Bool.eq_false_iff.2 (fun h => hfs (contains_of_search false (chars "/" ++ [Atom.eosOrQ]) p h))
  have h5 : reLayer.test p = false :=
    Bool.eq_false_iff.2
      (fun h => hfs (contains_of_search true (chars "/" ++ [Atom.digits, Atom.eos]) p h))
  have h6 : reLayerInfo.test p = false :=
    Bool.eq_false_iff.2 (fun h => hfs
      (contains_of_search true (chars "/" ++ [Atom.digits] ++ chars "/info" ++ [Atom.eos]) p h))
  have h7 : reLayerSlash.test p = false :=
    Bool.eq_false_iff.2 (fun h => hfs
      (contains_of_search false (chars "/" ++ [Atom.digits] ++ chars "/" ++ [Atom.eosOrQ]) p h))
  have h8 : reLayers.test p = false :=
    Bool.eq_false_iff.2
      (fun h => hfs (contains_of_search true (chars "/layers" ++ [Atom.eos]) p h))
  have h9 : reFeatureServer.test p = false :=
    Bool.eq_false_iff.2 (fun h => hfs (contains_of_search true [] p h))
  unfold classify
  simp only [h1, h2, h3, h4, h5, h6, h7, h8, h9, Bool.or_false, Bool.false_eq_true, if_false]

theorem requestPath_no_question (req : Request) (p : JsString)
    (h : requestPath req = some p) : 63 ∉ p := by
  unfold requestPath at h
  cases hu : requestUrl req with
  | none => rw [hu] at h; simp at h
  | some u =>
    rw [hu] at h
    simp only [Option.map_some', Option.some.injEq] at h
    exact h ▸ beforeQuestionMark_no_question u

/-- The call of `route` on a request that passes normalization, carries no method token
that `route` handles itself, and has a path. -/
theorem afterLint_info (ops : Ops) (req : Request) (geojson : JsValue) (query : Query)
    (p : JsString) (hnorm : normalize (req.query.getD []) (metadataOf geojson) = .ok query)
    (hquery : methodOf req ≠ some (js "query"))
    (hrend : methodOf req ≠ some (js "generateRenderer"))
    (hpath : requestPath req = some p) :
    routeAfterLint ops req geojson
      = invokeInfo ops (classify p) query (req.params.getD []) (sourceOf geojson) := by
  simp only [routeAfterLint, hnorm, hquery, hrend, if_false, execInfo, hpath]

/-- A path that ends with `/FeatureServer/layers` matches none of the three patterns with a
numeric layer id. -/
theorem layers_not_numeric (pre : JsString) (hq : 63 ∉ pre ++ js "/FeatureServer/layers") :
    reLayer.test (pre ++ js "/FeatureServer/layers") = false ∧
      reLayerInfo.test (pre ++ js "/FeatureServer/layers") = false ∧
      reLayerSlash.test (pre ++ js "/FeatureServer/layers") = false := by
  have hrev : (pre ++ js "/FeatureServer/layers").reverse = 115 :: 114 :: 101 :: 121 :: 97 :: 108 :: 47 :: 114 :: 101 :: 118 :: 114 :: 101 :: 83 :: 101 :: 114 :: 117 :: 116 :: 97 :: 101 :: 70 :: 47 :: pre.reverse := by
    simp [js_featureServerLayers]
  refine ⟨?_, ?_, ?_⟩
  · rw [test_reLayer, hrev]
    simp [matchHere_digits_cons, isDecDigit]
  · rw [test_reLayerInfo, hrev]
    simp [matchHere_chr_cons, charMatches, canonicalize]
  · rw [test_reLayerSlash _ hq, hrev]
    simp [matchHere_chr_cons, charMatches]

theorem respond_calls (calls : List Call) (result : Except Failure JsValue) :
    (respond calls result).calls = calls := by
  cases result <;> rfl

/-- Either `route` calls no collaborator, or it calls exactly one and answers with what
that call returned or raised. -/
theorem afterLint_shape (ops : Ops) (req : Request) (geojson : JsValue) :
    (routeAfterLint ops req geojson).calls = [] ∨
      ∃ c, routeAfterLint ops req geojson = respond [c] (c.run ops) := by
  unfold routeAfterLint
  cases normalize (req.query.getD []) (metadataOf geojson) with
  | invalid r => exact Or.inl rfl
  | threw e => exact Or.inl rfl
  | ok query =>
    simp only
    split
    · exact Or.inr ⟨.query (sourceOf geojson) query, rfl⟩
    · split
      · exact Or.inr ⟨.generateRenderer (sourceOf geojson) query, rfl⟩
      · unfold execInfo
        cases requestPath req with
        | none => exact Or.inl rfl
        | some p =>
          simp only
          cases classify p with
          | restInfo => exact Or.inr ⟨.restInfo (sourceOf geojson), rfl⟩
          | serverInfo => exact Or.inr ⟨.serverInfo (sourceOf geojson) (req.params.getD []), rfl⟩
          | layerInfo => exact Or.inr ⟨.layerInfo (sourceOf geojson) (req.params.getD []), rfl⟩
          | layersInfo => exact Or.inr ⟨.layersInfo (sourceOf geojson) query, rfl⟩
          | methodNotSupported => exact Or.inl rfl
          | notFound => exact Or.inl rfl

/-! ## Query normalization -/

theorem lookupLast_cons {β : Type} (key k : JsString) (w : β) (rest : List (JsString × β)) :
    lookupLast key ((k, w) :: rest)
      = match lookupLast key rest with
        | some x => some x
        | none => if k = key then some w else none := rfl

theorem lookupLast_map_set_eq (key : JsString) (v : JsValue) (query : Query) :
    lookupLast key (query.map (fun p => if p.1 == key then (p.1, v) else p))
      = if query.any (fun p => p.1 == key) = true then some v else none := by
  induction query with
  | nil => rfl
  | cons p rest ih =>
    obtain ⟨k, w⟩ := p
    by_cases hk : k = key
    · subst hk
      have hf : (if ((k, w) : JsString × JsValue).1 == k then (((k, w) : JsString × JsValue).1, v)
          else (k, w)) = (k, v) := by simp
      rw [List.map_cons, hf, lookupLast_cons, ih]
      by_cases hrest : rest.any (fun p => p.1 == k) = true
      · simp [hrest]
      · simp [hrest]
    · have hf : (if ((k, w) : JsString × JsValue).1 == key then
          (((k, w) : JsString × JsValue).1, v) else (k, w)) = (k, w) := by simp [hk]
      rw [List.map_cons, hf, lookupLast_cons, ih]
      by_cases hrest : rest.any (fun p => p.1 == key) = true
      · simp [hrest]
      · simp [hrest, hk]

theorem lookupLast_map_set (key : JsString) (v : JsValue) (query : Query)
    (h : query.any (fun p => p.1 == key) = true) :
    lookupLast key (query.map (fun p => if p.1 == key then (p.1, v) else p)) = some v := by
  rw [lookupLast_map_set_eq, if_pos h]

theorem lookupLast_append_self (key : JsString) (v : JsValue) (query : Query) :
    lookupLast key (query ++ [(key, v)]) = some v := by
  induction query with
  | nil => simp [lookupLast]
  | cons p rest ih =>
    obtain ⟨k, w⟩ := p
    simp only [List.cons_append, lookupLast, List.append_eq, ih]

theorem getKey_setKey (query : Query) (key : JsString) (v : JsValue) :
    getKey (setKey query key v) key = v := by
  unfold getKey setKey
  split
  · rename_i h
    rw [lookupLast_map_set key v query h]
    rfl
  · rw [lookupLast_append_self]
    rfl

/-- The `limit` of the normalized query is the first truthy value among the parsed `limit`,
the parsed `resultRecordCount` and `metadata.maxRecordCount`, and 2000 when none is. -/
theorem normalize_limit_eq (rawQuery : RawQuery) (metadata : JsValue) (query : Query)
    (h : normalize rawQuery metadata = .ok query) :
    getKey query (js "limit") =
      jsOr (getKey (parseQuery rawQuery) (js "limit"))
        (jsOr (getKey (parseQuery rawQuery) (js "resultRecordCount"))
          (jsOr (metadata.get (js "maxRecordCount")) (JsValue.nat 2000))) := by
  unfold normalize at h
  simp only at h
  split at h
  · cases h
  · cases h
  · split at h
    · cases h
    · cases h
    · split at h
      · rename_i hl
        simp only [Normalized.ok.injEq] at h
        subst h
        rw [getKey_setKey]
        have hl' : truthy (getKey (parseQuery rawQuery) (js "limit")) = false := by
          simpa using hl
        simp only [jsOr, hl', Bool.false_eq_true, if_false]
      · rename_i hl
        simp only [Normalized.ok.injEq] at h
        subst h
        have hl' : truthy (getKey (parseQuery rawQuery) (js "limit")) = true := by
          simpa using hl
        simp only [jsOr, hl', if_true]

/-! ## What `JSON.parse` can return -/

theorem parseValueStart_defined (stack : List Frame) (t : Token) :
    DefinedMode (parseValueStart stack t).2 := by
  cases t <;> simp [parseValueStart, DefinedMode, Defined]

theorem parseStep_defined (st : List Frame × Mode) (t : Token) :
    DefinedMode (parseStep st t).2 := by
  obtain ⟨stack, mode⟩ := st
  cases mode with
  | value => exact parseValueStart_defined stack t
  | arrFirst =>
    simp only [parseStep]
    split
    · simp [DefinedMode, Defined]
    · exact parseValueStart_defined stack t
  | objFirst =>
    simp only [parseStep]
    split <;> simp [DefinedMode, Defined]
  | objKey props =>
    simp only [parseStep]
    split <;> simp [DefinedMode]
  | colon props k =>
    simp only [parseStep]
    split <;> simp [DefinedMode]
  | after v =>
    simp only [parseStep]
    split <;> simp [DefinedMode, Defined]
  | bad => simp [parseStep, DefinedMode]

theorem foldl_parseStep_defined (toks : List Token) (st : List Frame × Mode)
    (h : DefinedMode st.2) : DefinedMode (toks.foldl parseStep st).2 := by
  induction toks generalizing st with
  | nil => exact h
  | cons t rest ih => exact ih _ (parseStep_defined st t)

/-- The function `JSON.parse` returns neither `undefined` nor `NaN`. -/
theorem jsonParse_defined (s : JsString) (v : JsValue) (h : jsonParse s = some v) :
    Defined v := by
  unfold jsonParse at h
  cases ht : tokenize s with
  | none => rw [ht] at h; cases h
  | some toks =>
    rw [ht] at h
    simp only at h
    have hd := foldl_parseStep_defined toks ([], .value) trivial
    generalize toks.foldl parseStep ([], .value) = st at h hd
    obtain ⟨stack, mode⟩ := st
    cases stack with
    | nil =>
      cases mode <;> simp only [parseEnd, Option.some.injEq] at h <;> try cases h
      exact hd
    | cons f fs => cases mode <;> simp [parseEnd] at h

theorem tryParse_defined (c : Coerced) : Defined (tryParse c) := by
  cases c with
  | bool b =>
    simp only [tryParse]
    cases h : jsonParse (if b then js "true" else js "false") with
    | none => simp [Defined]
    | some v => exact jsonParse_defined _ v h
  | str s =>
    simp only [tryParse]
    cases h : jsonParse s with
    | none => simp [Defined]
    | some v => exact jsonParse_defined _ v h

/-- A value other than `undefined` and `NaN` for which `isNaN` answers `true` is truthy. -/
theorem truthy_of_isNaN (v : JsValue) (hd : Defined v) (hn : isNaN v = .ok true) :
    truthy v = true := by
  cases v with
  | undefined => exact absurd rfl hd.1
  | null => simp [isNaN] at hn
  | bool b => simp [isNaN] at hn
  | num n =>
    cases n with
    | nan => exact absurd rfl hd.2
    | dec neg m e =>
      simp [isNaN] at hn
  | str s =>
    cases s with
    | nil =>
      simp only [isNaN, Except.ok.injEq] at hn
      exact absurd hn (by decide)
    | cons c cs => rfl
  | arr items => rfl
  | obj props => rfl

theorem lookupLast_map_value {β γ : Type} (f : β → γ) (key : JsString)
    (l : List (JsString × β)) :
    lookupLast key (l.map (fun p => (p.1, f p.2))) = (lookupLast key l).map f := by
  induction l with
  | nil => rfl
  | cons p rest ih =>
    obtain ⟨k, w⟩ := p
    rw [List.map_cons, lookupLast_cons, lookupLast_cons, ih]
    cases lookupLast key rest with
    | some x => rfl
    | none =>
      by_cases hk : k = key
      · simp [hk]
      · simp [hk]

/-- The parsed value of a key of the raw query is `tryParse` of `coerceQuery`'s value. -/
theorem getKey_parseQuery (rawQuery : RawQuery) (key s : JsString)
    (h : lookupLast key rawQuery = some s) :
    getKey (parseQuery rawQuery) key = tryParse (coerceValue s) := by
  unfold getKey parseQuery coerceQuery
  rw [lookupLast_map_value tryParse, lookupLast_map_value coerceValue, h]
  rfl

/-- Every `limit` of the raw query for which `isNaN` answers `true` after coercion and
parsing ends the request with status 400 and no call of a collaborator. -/
theorem afterLint_invalid_limit (ops : Ops) (req : Request) (geojson : JsValue)
    (s : JsString) (hs : lookupLast (js "limit") (req.query.getD []) = some s)
    (hn : isNaN (tryParse (coerceValue s)) = .ok true) :
    routeAfterLint ops req geojson
      = ⟨[], [⟨400, errorBody (js "Invalid \"limit\" parameter")⟩], none⟩ := by
  have hk := getKey_parseQuery (req.query.getD []) (js "limit") s hs
  have ht := truthy_of_isNaN _ (tryParse_defined (coerceValue s)) hn
  simp only [routeAfterLint, normalize, truthyAndNaN, hk, ht, if_true, hn]

/-! ## Deliveries -/

theorem respond_delivered (calls : List Call) (result : Except Failure JsValue) :
    (respond calls result).delivered.length = 1 ∧ (respond calls result).thrown = none := by
  cases result <;> exact ⟨rfl, rfl⟩

/-- When `isNaN` does not raise during validation and the request has a `url` or an
`originalUrl`, `route` hands exactly one response to `helpers.responseHandler` and no
exception escapes. -/
theorem afterLint_delivers_once (ops : Ops) (req : Request) (geojson : JsValue)
    (hnorm : ∀ e, normalize (req.query.getD []) (metadataOf geojson) ≠ .threw e)
    (hpath : requestPath req ≠ none) :
    (routeAfterLint ops req geojson).delivered.length = 1 ∧
      (routeAfterLint ops req geojson).thrown = none := by
  unfold routeAfterLint
  cases hn : normalize (req.query.getD []) (metadataOf geojson) with
  | invalid r => exact ⟨rfl, rfl⟩
  | threw e => exact absurd hn (hnorm e)
  | ok query =>
    simp only
    split
    · exact respond_delivered _ _
    · split
      · exact respond_delivered _ _
      · unfold execInfo
        cases hp : requestPath req with
        | none => exact absurd hp hpath
        | some p =>
          simp only
          cases classify p <;> exact respond_delivered _ _

/-- A `resultRecordCount` for which `isNaN` answers `true` after coercion and parsing,
next to a `limit` that is absent, falsy or numeric, ends the request with status 400 and no
call of a collaborator. -/
theorem afterLint_invalid_resultRecordCount (ops : Ops) (req : Request)
    (geojson : JsValue) (s : JsString)
    (hl : truthyAndNaN (getKey (parseQuery (req.query.getD [])) (js "limit")) = .ok false)
    (hs : lookupLast (js "resultRecordCount") (req.query.getD []) = some s)
    (hn : isNaN (tryParse (coerceValue s)) = .ok true) :
    routeAfterLint ops req geojson
      = ⟨[], [⟨400, errorBody (js "Invalid \"resultRecordCount\" parameter")⟩], none⟩ := by
  have hk := getKey_parseQuery (req.query.getD []) (js "resultRecordCount") s hs
  have ht := truthy_of_isNaN _ (tryParse_defined (coerceValue s)) hn
  have hr : truthyAndNaN (getKey (parseQuery (req.query.getD [])) (js "resultRecordCount"))
      = .ok true := by
    simp only [truthyAndNaN, hk, ht, if_true, hn]
  simp only [routeAfterLint, normalize, hl, hr]

/-- When the lint call raises, `route` delivers nothing and the exception escapes. -/
theorem route_lint_raises (host : Host) (ops : Ops) (req : Request) (geojson : JsValue)
    (e : JsError) (h : lint host geojson = .error e) :
    route host ops req geojson = ⟨[], [], some e⟩ := by
  simp only [route, h]

/-- When the lint call returns, or is switched off, `route` goes on with lines 25-50. -/
theorem route_lint_returns (host : Host) (ops : Ops) (req : Request) (geojson : JsValue)
    (h : lint host geojson = .ok ()) :
    route host ops req geojson = routeAfterLint ops req geojson := by
  simp only [route, h]

/-- A linter that raises makes `route` deliver nothing and the exception escape, whatever
the request and the source; with `NODE_ENV` set to `production`, or `KOOP_WARNINGS` to
`suppress`, the same linter is not called. -/
theorem route_lint_examples (ops : Ops) (req : Request) (geojson : JsValue) :
    route raisingHost ops req geojson = ⟨[], [], some .typeError⟩ ∧
      route ⟨some (js "production"), none, raisingHost.hint⟩ ops req geojson
        = routeAfterLint ops req geojson ∧
      route ⟨none, some (js "suppress"), raisingHost.hint⟩ ops req geojson
        = routeAfterLint ops req geojson :=
  ⟨rfl, rfl, rfl⟩

/-- When neither the lint call nor `isNaN` raises and the request has a `url` or an
`originalUrl`, `route` hands exactly one response to `helpers.responseHandler` and no
exception escapes. -/
theorem route_delivers_once (host : Host) (ops : Ops) (req : Request) (geojson : JsValue)
    (hlint : lint host geojson = .ok ())
    (hnorm : ∀ e, normalize (req.query.getD []) (metadataOf geojson) ≠ .threw e)
    (hpath : requestPath req ≠ none) :
    (route host ops req geojson).delivered.length = 1 ∧
      (route host ops req geojson).thrown = none := by
  rw [route_lint_returns host ops req geojson hlint]
  exact afterLint_delivers_once ops req geojson hnorm hpath

/-- When the lint call returns, a `resultRecordCount` for which `isNaN` answers `true`
after coercion and parsing, next to a `limit` that is absent, falsy or numeric, ends the
request with status 400 and no call of a collaborator. -/
theorem route_invalid_resultRecordCount_of_isNaN (host : Host) (ops : Ops) (req : Request)
    (geojson : JsValue) (s : JsString) (hlint : lint host geojson = .ok ())
    (hl : truthyAndNaN (getKey (parseQuery (req.query.getD [])) (js "limit")) = .ok false)
    (hs : lookupLast (js "resultRecordCount") (req.query.getD []) = some s)
    (hn : isNaN (tryParse (coerceValue s)) = .ok true) :
    route host ops req geojson
      = ⟨[], [⟨400, errorBody (js "Invalid \"resultRecordCount\" parameter")⟩], none⟩ := by
  rw [route_lint_returns host ops req geojson hlint]
  exact afterLint_invalid_resultRecordCount ops req geojson s hl hs hn

/-- When the lint call returns, every `limit` of the raw query for which `isNaN` answers
`true` after coercion and parsing ends the request with status 400 and no call of a
collaborator. -/
theorem route_invalid_limit_of_isNaN (host : Host) (ops : Ops) (req : Request)
    (geojson : JsValue) (s : JsString) (hlint : lint host geojson = .ok ())
    (hs : lookupLast (js "limit") (req.query.getD []) = some s)
    (hn : isNaN (tryParse (coerceValue s)) = .ok true) :
    route host ops req geojson
      = ⟨[], [⟨400, errorBody (js "Invalid \"limit\" parameter")⟩], none⟩ := by
  rw [route_lint_returns host ops req geojson hlint]
  exact afterLint_invalid_limit ops req geojson s hs hn

/-! ## The claims, continued -/

/-- C11, where the code departs from it: a request with a string path whose `limit` is
`{"toString":1}` gets no delivery at all, and a TypeError escapes `route`, whatever the
host, the collaborators, the method token and the feature source are. -/
theorem route_no_delivery_on_type_error :
    ∀ (host : Host) (ops : Ops) (path : JsString) (params : Option Params)
      (geojson : JsValue),
      (route host ops ⟨some path, some path,
          some [(js "limit", js "\x7b\"toString\":1\x7d")], params⟩ geojson).delivered.length
          = 0 ∧
        (route host ops ⟨some path, some path,
          some [(js "limit", js "\x7b\"toString\":1\x7d")], params⟩ geojson).thrown
          = some .typeError := by
  intro host ops path params geojson
  unfold route
  cases lint host geojson with
  | error e => cases e; exact ⟨rfl, rfl⟩
  | ok u => exact ⟨rfl, rfl⟩

/-- C14, where the code departs from it: with no `limit`, the `resultRecordCount` value
`{"toString":1}` parses to an object with an own `toString` property. It is present and is
no number, yet `isNaN` raises a TypeError on it and `route` delivers no response. -/
theorem route_resultRecordCount_object_throws :
    getKey (parseQuery [(js "resultRecordCount", js "\x7b\"toString\":1\x7d")])
        (js "resultRecordCount") = .obj [(js "toString", .nat 1)] ∧
      getKey (parseQuery [(js "resultRecordCount", js "\x7b\"toString\":1\x7d")])
        (js "limit") = .undefined ∧
      ∀ (host : Host) (ops : Ops) (url originalUrl : Option JsString) (params : Option Params)
        (geojson : JsValue),
        route host ops ⟨url, originalUrl,
            some [(js "resultRecordCount", js "\x7b\"toString\":1\x7d")], params⟩ geojson
          = ⟨[], [], some .typeError⟩ := by
  refine ⟨rfl, rfl, ?_⟩
  intro host ops url originalUrl params geojson
  unfold route
  cases lint host geojson with
  | error e => cases e; rfl
  | ok u => rfl

/-! ## The normalized query -/

/-- A request that passes validation keeps the parsed query when its `limit` is truthy,
and otherwise gets the default assigned to `limit`. -/
theorem normalize_ok_cases (rawQuery : RawQuery) (metadata : JsValue) (query : Query)
    (h : normalize rawQuery metadata = .ok query) :
    (truthy (getKey (parseQuery rawQuery) (js "limit")) = true ∧ query = parseQuery rawQuery) ∨
      (truthy (getKey (parseQuery rawQuery) (js "limit")) = false ∧
        query = setKey (parseQuery rawQuery) (js "limit")
          (jsOr (getKey (parseQuery rawQuery) (js "resultRecordCount"))
            (jsOr (metadata.get (js "maxRecordCount")) (JsValue.nat 2000)))) := by
  unfold normalize at h
  simp only at h
  split at h
  · cases h
  · cases h
  · split at h
    · cases h
    · cases h
    · split at h
      · rename_i hl
        simp only [Normalized.ok.injEq] at h
        exact Or.inr ⟨by simpa using hl, h.symm⟩
      · rename_i hl
        simp only [Normalized.ok.injEq] at h
        exact Or.inl ⟨by simpa using hl, h.symm⟩

theorem lookupLast_map_other (key k : JsString) (v : JsValue) (query : Query) (hk : key ≠ k) :
    lookupLast key (query.map (fun p => if p.1 == k then (p.1, v) else p))
      = lookupLast key query := by
  induction query with
  | nil => rfl
  | cons p rest ih =>
    obtain ⟨k', w⟩ := p
    by_cases hk' : k' = k
    · subst hk'
      have hf : (if ((k', w) : JsString × JsValue).1 == k' then
          (((k', w) : JsString × JsValue).1, v) else (k', w)) = (k', v) := by simp
      have hne : ¬ k' = key := fun h => hk h.symm
      rw [List.map_cons, hf, lookupLast_cons, lookupLast_cons, ih]
      simp only [hne, if_false]
    · have hf : (if ((k', w) : JsString × JsValue).1 == k then
          (((k', w) : JsString × JsValue).1, v) else (k', w)) = (k', w) := by simp [hk']
      rw [List.map_cons, hf, lookupLast_cons, lookupLast_cons, ih]

theorem lookupLast_append_other (key k : JsString) (v : JsValue) (query : Query)
    (hk : key ≠ k) : lookupLast key (query ++ [(k, v)]) = lookupLast key query := by
  induction query with
  | nil =>
    have hne : ¬ k = key := fun h => hk h.symm
    simp [lookupLast, hne]
  | cons p rest ih =>
    obtain ⟨k', w⟩ := p
    rw [List.cons_append, lookupLast_cons, lookupLast_cons, ih]

/-- The assignment `query.k = v` leaves every other key as it was. -/
theorem getKey_setKey_ne (query : Query) (key k : JsString) (v : JsValue) (hk : key ≠ k) :
    getKey (setKey query k v) key = getKey query key := by
  unfold getKey setKey
  split
  · rw [lookupLast_map_other key k v query hk]
  · rw [lookupLast_append_other key k v query hk]

/-- The function `tryParse` gives the same value after `coerceQuery` as on the raw string. -/
theorem tryParse_coerceValue (s : JsString) : tryParse (coerceValue s) = tryParse (.str s) := by
  unfold coerceValue
  split
  · rename_i h
    subst h
    rfl
  · split
    · rename_i h
      subst h
      rfl
    · rfl

theorem lookupLast_eq_none_iff {β : Type} (key : JsString) (l : List (JsString × β)) :
    lookupLast key l = none ↔ key ∉ l.map Prod.fst := by
  induction l with
  | nil => simp [lookupLast]
  | cons p rest ih =>
    obtain ⟨k, w⟩ := p
    rw [lookupLast_cons]
    cases hl : lookupLast key rest with
    | some x =>
      have hmem : key ∈ rest.map Prod.fst := by
        by_contra hc
        rw [ih.2 hc] at hl
        cases hl
      simp [hmem]
    | none =>
      have hmem : key ∉ rest.map Prod.fst := ih.1 hl
      by_cases hk : k = key
      · simp [hk]
      · have hk' : ¬ key = k := fun h => hk h.symm
        simp [hk, hk', hmem]

theorem keys_parseQuery (rawQuery : RawQuery) :
    (parseQuery rawQuery).map Prod.fst = rawQuery.map Prod.fst := by
  unfold parseQuery coerceQuery
  simp [List.map_map, Function.comp_def]

theorem mem_keys_setKey (query : Query) (k key : JsString) (v : JsValue) :
    key ∈ (setKey query k v).map Prod.fst ↔ key ∈ query.map Prod.fst ∨ key = k := by
  unfold setKey
  split
  · rename_i h
    have hmap : (query.map (fun p => if p.1 == k then (p.1, v) else p)).map Prod.fst
        = query.map Prod.fst := by
      rw [List.map_map]
      apply List.map_congr_left
      intro p _
      simp only [Function.comp]
      split <;> rfl
    rw [hmap]
    constructor
    · exact Or.inl
    · rintro (h' | h')
      · exact h'
      · subst h'
        simp only [List.any_eq_true, beq_iff_eq] at h
        obtain ⟨p, hp, hpk⟩ := h
        exact List.mem_map.2 ⟨p, hp, hpk⟩
  · simp [List.map_append]

theorem truthy_getKey_mem (query : Query) (key : JsString)
    (h : truthy (getKey query key) = true) : key ∈ query.map Prod.fst := by
  by_contra hc
  have hn := (lookupLast_eq_none_iff key query).2 hc
  simp [getKey, hn, truthy] at h

theorem truthy_jsOr (a b : JsValue) : truthy (jsOr a b) = (truthy a || truthy b) := by
  unfold jsOr
  cases ha : truthy a <;> simp [ha]

theorem normalize_limit_truthy (rawQuery : RawQuery) (metadata : JsValue) (query : Query)
    (h : normalize rawQuery metadata = .ok query) :
    truthy (getKey query (js "limit")) = true := by
  have h2000 : truthy (JsValue.nat 2000) = true := rfl
  rw [normalize_limit_eq rawQuery metadata query h, truthy_jsOr, truthy_jsOr, truthy_jsOr,
    h2000]
  simp

/-- The query a collaborator receives is the normalized query of the request. -/
theorem afterLint_query_of_call (ops : Ops) (req : Request) (geojson g : JsValue) (q : Query)
    (h : Call.query g q ∈ (routeAfterLint ops req geojson).calls ∨
      Call.generateRenderer g q ∈ (routeAfterLint ops req geojson).calls ∨
      Call.layersInfo g q ∈ (routeAfterLint ops req geojson).calls) :
    normalize (req.query.getD []) (metadataOf geojson) = .ok q := by
  unfold routeAfterLint at h
  cases hn : normalize (req.query.getD []) (metadataOf geojson) with
  | invalid r => rw [hn] at h; simp at h
  | threw e => rw [hn] at h; simp at h
  | ok query =>
    rw [hn] at h
    simp only at h
    split at h
    · simp only [execQuery, respond_calls, List.mem_singleton, Call.query.injEq, false_or,
        or_false] at h
      simp only [reduceCtorEq, or_false] at h
      rw [h.2]
    · split at h
      · simp only [execGenerateRenderer, respond_calls, List.mem_singleton,
          Call.generateRenderer.injEq, reduceCtorEq, false_or, or_false] at h
        rw [h.2]
      · unfold execInfo at h
        cases hp : requestPath req with
        | none => rw [hp] at h; simp at h
        | some p =>
          rw [hp] at h
          simp only at h
          cases hc : classify p <;> rw [hc] at h <;>
            simp only [invokeInfo, respond_calls, List.mem_singleton, reduceCtorEq,
              List.not_mem_nil, or_self, Call.layersInfo.injEq, false_or] at h
          rw [h.2]

/-! ## The claims about the normalized query -/

/-- C12 as stated fails: with `limit = "false"` the normalized query holds 2000 under
`limit`, not the boolean `false`. -/
theorem normalize_limit_false_counterexample :
    lookupLast (js "limit") [(js "limit", js "false")] = some (js "false") ∧
      normalize [(js "limit", js "false")] (.obj []) = .ok [(js "limit", .nat 2000)] ∧
      getKey [(js "limit", .nat 2000)] (js "limit") ≠ .bool false := by
  refine ⟨rfl, rfl, ?_⟩
  intro h
  have h' : JsValue.num (.dec false 2000 0) = JsValue.bool false := h
  cases h'

/-- C12, amended: for a request that passes validation, a key whose raw value is exactly
`"true"` holds the boolean `true` in the normalized query, and a key other than `limit`
whose raw value is exactly `"false"` holds the boolean `false`. -/
theorem normalize_boolean (rawQuery : RawQuery) (metadata : JsValue) (query : Query)
    (key : JsString) (h : normalize rawQuery metadata = .ok query) :
    (lookupLast key rawQuery = some (js "true") → getKey query key = .bool true) ∧
      (lookupLast key rawQuery = some (js "false") → key ≠ js "limit" →
        getKey query key = .bool false) := by
  constructor
  · intro hs
    have hk := getKey_parseQuery rawQuery key (js "true") hs
    have hv : tryParse (coerceValue (js "true")) = .bool true := rfl
    rw [hv] at hk
    rcases normalize_ok_cases rawQuery metadata query h with ⟨_, hq⟩ | ⟨hl, hq⟩
    · rw [hq, hk]
    · by_cases hkey : key = js "limit"
      · subst hkey
        rw [hk] at hl
        cases hl
      · rw [hq, getKey_setKey_ne _ _ _ _ hkey, hk]
  · intro hs hkey
    have hk := getKey_parseQuery rawQuery key (js "false") hs
    have hv : tryParse (coerceValue (js "false")) = .bool false := rfl
    rw [hv] at hk
    rcases normalize_ok_cases rawQuery metadata query h with ⟨_, hq⟩ | ⟨_, hq⟩
    · rw [hq, hk]
    · rw [hq, getKey_setKey_ne _ _ _ _ hkey, hk]

theorem normalize_boolean_witness :
    (lookupLast (js "returnGeometry") [(js "returnGeometry", js "false")] = some (js "true") →
        getKey [(js "returnGeometry", .bool false), (js "limit", .nat 2000)]
          (js "returnGeometry") = .bool true) ∧
      (lookupLast (js "returnGeometry") [(js "returnGeometry", js "false")]
          = some (js "false") → js "returnGeometry" ≠ js "limit" →
        getKey [(js "returnGeometry", .bool false), (js "limit", .nat 2000)]
          (js "returnGeometry") = .bool false) :=
  normalize_boolean [(js "returnGeometry", js "false")] (.obj [])
    [(js "returnGeometry", .bool false), (js "limit", .nat 2000)] (js "returnGeometry") rfl

/-- C13 as stated fails: `limit = "null"` is valid JSON, yet the normalized query holds 2000
under `limit`, not the parsed `null`; and the empty `limit`, which is not JSON, is not kept
as the original string but replaced by 2000 too. -/
theorem normalize_limit_null_counterexample :
    jsonParse (js "null") = some .null ∧
      normalize [(js "limit", js "null")] (.obj []) = .ok [(js "limit", .nat 2000)] ∧
      getKey [(js "limit", .nat 2000)] (js "limit") ≠ .null ∧
      jsonParse [] = none ∧
      normalize [(js "limit", [])] (.obj []) = .ok [(js "limit", .nat 2000)] ∧
      getKey [(js "limit", .nat 2000)] (js "limit") ≠ .str [] := by
  refine ⟨rfl, rfl, ?_, rfl, rfl, ?_⟩
  · intro h
    have h' : JsValue.num (.dec false 2000 0) = JsValue.null := h
    cases h'
  · intro h
    have h' : JsValue.num (.dec false 2000 0) = JsValue.str [] := h
    cases h'

/-- C13, amended: for a request that passes validation and a key of the raw query that is
not `limit`, or is `limit` with a truthy value after parsing, the normalized value is the
parsed JSON when the raw string is valid JSON and the raw string itself when it is not.
The function `tryParse` is total: it never raises. -/
theorem normalize_parsed (rawQuery : RawQuery) (metadata : JsValue) (query : Query)
    (key s : JsString) (h : normalize rawQuery metadata = .ok query)
    (hs : lookupLast key rawQuery = some s)
    (hkey : key ≠ js "limit" ∨ truthy (tryParse (coerceValue s)) = true) :
    (∀ v, jsonParse s = some v → getKey query key = v) ∧
      (jsonParse s = none → getKey query key = .str s) := by
  have hk := getKey_parseQuery rawQuery key s hs
  have hq : getKey query key = tryParse (.str s) := by
    rw [← tryParse_coerceValue, ← hk]
    rcases normalize_ok_cases rawQuery metadata query h with ⟨_, hq⟩ | ⟨hl, hq⟩
    · rw [hq]
    · rcases hkey with hkey | hkey
      · rw [hq, getKey_setKey_ne _ _ _ _ hkey]
      · by_cases hkl : key = js "limit"
        · subst hkl
          rw [hk, hkey] at hl
          cases hl
        · rw [hq, getKey_setKey_ne _ _ _ _ hkl]
  constructor
  · intro v hv
    rw [hq]
    simp only [tryParse, hv]
  · intro hv
    rw [hq]
    simp only [tryParse, hv]

theorem normalize_parsed_witness :
    (∀ v, jsonParse (js "[1,2]") = some v →
        getKey [(js "objectIds", .arr [.nat 1, .nat 2]), (js "limit", .nat 2000)]
          (js "objectIds") = v) ∧
      (jsonParse (js "[1,2]") = none →
        getKey [(js "objectIds", .arr [.nat 1, .nat 2]), (js "limit", .nat 2000)]
          (js "objectIds") = .str (js "[1,2]")) :=
  normalize_parsed [(js "objectIds", js "[1,2]")] (.obj [])
    [(js "objectIds", .arr [.nat 1, .nat 2]), (js "limit", .nat 2000)] (js "objectIds")
    (js "[1,2]") rfl rfl (Or.inl (by decide))

theorem route_calls_afterLint (host : Host) (ops : Ops) (req : Request) (geojson : JsValue)
    (c : Call) (h : c ∈ (route host ops req geojson).calls) :
    c ∈ (routeAfterLint ops req geojson).calls := by
  unfold route at h
  cases hl : lint host geojson with
  | error e => rw [hl] at h; cases h
  | ok u => rw [hl] at h; exact h

/-- C15: the normalized query that `route` hands to a collaborator (`query`,
`generateRenderer` or `layersInfo`) has `limit` among its keys with a truthy value, whatever
the host, the raw query and the metadata are: it is not absent, `undefined`, `null`, 0 or
otherwise falsy. -/
theorem route_limit_defined (host : Host) (ops : Ops) (req : Request) (geojson g : JsValue)
    (q : Query)
    (h : Call.query g q ∈ (route host ops req geojson).calls ∨
      Call.generateRenderer g q ∈ (route host ops req geojson).calls ∨
      Call.layersInfo g q ∈ (route host ops req geojson).calls) :
    js "limit" ∈ q.map Prod.fst ∧ truthy (getKey q (js "limit")) = true ∧
      getKey q (js "limit") ≠ .undefined ∧ getKey q (js "limit") ≠ .null ∧
      ∀ neg, getKey q (js "limit") ≠ .num (.dec neg 0 0) := by
  have h' : Call.query g q ∈ (routeAfterLint ops req geojson).calls ∨
      Call.generateRenderer g q ∈ (routeAfterLint ops req geojson).calls ∨
      Call.layersInfo g q ∈ (routeAfterLint ops req geojson).calls :=
    h.imp (route_calls_afterLint host ops req geojson _)
      (Or.imp (route_calls_afterLint host ops req geojson _)
        (route_calls_afterLint host ops req geojson _))
  have hn := afterLint_query_of_call ops req geojson g q h'
  have ht := normalize_limit_truthy _ _ q hn
  refine ⟨truthy_getKey_mem q _ ht, ht, ?_, ?_, ?_⟩
  · intro he
    rw [he] at ht
    cases ht
  · intro he
    rw [he] at ht
    cases ht
  · intro neg he
    have hz : truthy (.num (.dec neg 0 0)) = false := rfl
    rw [he, hz] at ht
    cases ht

theorem route_limit_defined_witness :
    js "limit" ∈ ([(js "limit", JsValue.nat 2000)] : Query).map Prod.fst ∧
      truthy (getKey [(js "limit", .nat 2000)] (js "limit")) = true ∧
      getKey [(js "limit", .nat 2000)] (js "limit") ≠ .undefined ∧
      getKey [(js "limit", .nat 2000)] (js "limit") ≠ .null ∧
      ∀ neg, getKey [(js "limit", .nat 2000)] (js "limit") ≠ .num (.dec neg 0 0) :=
  route_limit_defined sampleHost sampleOps
    (sampleRequest "/x" [(js "limit", js "0")] (some "query"))
    .undefined (.obj []) [(js "limit", .nat 2000)] (Or.inl (List.Mem.head _))

/-- C16: for a request that passes validation, the keys of the normalized query are the
keys of the raw query together with `limit`: every raw key is kept, and `limit` is the
only key that can be added. -/
theorem normalize_keys (rawQuery : RawQuery) (metadata : JsValue) (query : Query)
    (h : normalize rawQuery metadata = .ok query) (key : JsString) :
    key ∈ query.map Prod.fst ↔ key ∈ rawQuery.map Prod.fst ∨ key = js "limit" := by
  rcases normalize_ok_cases rawQuery metadata query h with ⟨hl, hq⟩ | ⟨_, hq⟩
  · rw [hq, keys_parseQuery]
    constructor
    · exact Or.inl
    · rintro (hk | hk)
      · exact hk
      · rw [hk, ← keys_parseQuery]
        exact truthy_getKey_mem _ _ hl
  · rw [hq, mem_keys_setKey, keys_parseQuery]

theorem normalize_keys_witness :
    js "limit" ∈ ([(js "where", JsValue.str (js "a>1")), (js "limit", JsValue.nat 2000)]
        : Query).map Prod.fst ↔
      js "limit" ∈ ([(js "where", js "a>1")] : RawQuery).map Prod.fst ∨
        js "limit" = js "limit" :=
  normalize_keys [(js "where", js "a>1")] (.obj [])
    [(js "where", .str (js "a>1")), (js "limit", .nat 2000)] rfl (js "limit")

/-- C18: the pass of `coerceQuery` is redundant. On every raw string `tryParse` gives the
same value with and without it, so the parsed query is the same mapping, and lines 31-39
of `route` with line 31 removed end exactly as they do with it. -/
theorem coerceQuery_redundant :
    (∀ s : JsString, tryParse (coerceValue s) = tryParse (.str s)) ∧
      (∀ rawQuery : RawQuery,
        parseQuery rawQuery = rawQuery.map (fun p => (p.1, tryParse (.str p.2)))) ∧
      (∀ (rawQuery : RawQuery) (metadata : JsValue),
        normalize rawQuery metadata = normalizeWithoutCoerce rawQuery metadata) := by
  have hp : ∀ rawQuery : RawQuery,
      parseQuery rawQuery = rawQuery.map (fun p => (p.1, tryParse (.str p.2))) := by
    intro rawQuery
    unfold parseQuery coerceQuery
    rw [List.map_map]
    apply List.map_congr_left
    intro p _
    simp only [Function.comp, tryParse_coerceValue]
  refine ⟨tryParse_coerceValue, hp, ?_⟩
  intro rawQuery metadata
  unfold normalize normalizeWithoutCoerce
  rw [hp rawQuery]

/-- C19: coercion followed by parsing is not idempotent. The raw value `"\"true\""` gives
the string `true`, which a second application turns into the boolean `true`; the raw value
`"\"1\""` gives the string `1`, which a second application turns into the number 1. -/
theorem parse_not_idempotent :
    tryParse (coerceValue (js "\"true\"")) = .str (js "true") ∧
      tryParse (coerceValue (js "true")) = .bool true ∧
      JsValue.str (js "true") ≠ JsValue.bool true ∧
      tryParse (coerceValue (js "\"1\"")) = .str (js "1") ∧
      tryParse (coerceValue (js "1")) = .nat 1 ∧
      JsValue.str (js "1") ≠ JsValue.nat 1 ∧
      parseQuery [(js "f", js "\"true\"")] = [(js "f", .str (js "true"))] ∧
      parseQuery [(js "f", js "true")] = [(js "f", .bool true)] :=
  ⟨rfl, rfl, (fun h => by cases h), rfl, rfl, (fun h => by cases h), rfl, rfl⟩


/-! ## The four specific patterns against each other -/

theorem charMatches_canon (ic : Bool) (c x : Nat) (h : charMatches ic c x = true) :
    canonicalize x = canonicalize c := by
  cases ic
  · simp only [charMatches, if_false, Bool.false_eq_true, beq_iff_eq] at h
    rw [h]
  · simpa [charMatches] using h

theorem canonicalize_digit (x : Nat) (h : isDecDigit x = true) : canonicalize x = x := by
  simp only [isDecDigit, Bool.and_eq_true, decide_eq_true_eq] at h
  unfold canonicalize
  split_ifs <;> omega

theorem matchHere_chr_elim (ic : Bool) (c : Nat) (rest : List Atom) (r : JsString)
    (h : matchHere ic (.chr c :: rest) r = true) :
    ∃ x xs, r = x :: xs ∧ canonicalize x = canonicalize c ∧ matchHere ic rest xs = true := by
  cases r with
  | nil => simp [matchHere] at h
  | cons x xs =>
    rw [matchHere_chr_cons, Bool.and_eq_true] at h
    exact ⟨x, xs, rfl, charMatches_canon ic c x h.1, h.2⟩

theorem matchHere_digits_elim (ic : Bool) (rest : List Atom) (r : JsString)
    (h : matchHere ic (.digits :: rest) r = true) :
    ∃ x xs, r = x :: xs ∧ isDecDigit x = true := by
  cases r with
  | nil => simp [matchHere, digitTails] at h
  | cons x xs =>
    cases hx : isDecDigit x with
    | true => exact ⟨x, xs, rfl, hx⟩
    | false => rw [matchHere_digits_cons ic rest x xs hx] at h; cases h

/-- Two runs of atoms that `clash` never match at the start of the same input. -/
theorem clash_sound (ic ic' : Bool) (as bs : List Atom) (r : JsString)
    (hc : clash as bs = true) (ha : matchHere ic as r = true)
    (hb : matchHere ic' bs r = true) : False := by
  induction as generalizing bs r with
  | nil => simp [clash] at hc
  | cons a rest ih =>
    cases a with
    | chr c =>
      cases bs with
      | nil => simp [clash] at hc
      | cons b rest' =>
        obtain ⟨x, xs, rfl, hx, hrest⟩ := matchHere_chr_elim ic c rest r ha
        cases b with
        | chr d =>
          obtain ⟨y, ys, hr, hy, hrest'⟩ := matchHere_chr_elim ic' d rest' _ hb
          simp only [List.cons.injEq] at hr
          obtain ⟨rfl, rfl⟩ := hr
          simp only [clash, Bool.or_eq_true, bne_iff_ne, ne_eq] at hc
          rcases hc with hc | hc
          · exact hc (hx.symm.trans hy)
          · exact ih rest' _ hc hrest hrest'
        | digits =>
          obtain ⟨y, ys, hr, hy⟩ := matchHere_digits_elim ic' rest' _ hb
          simp only [List.cons.injEq] at hr
          obtain ⟨rfl, rfl⟩ := hr
          simp only [clash, Bool.not_eq_true', ← hx, canonicalize_digit _ hy] at hc
          rw [hc] at hy
          cases hy
        | eos => simp [clash] at hc
        | eosOrQ => simp [clash] at hc
    | digits =>
      cases bs with
      | nil => simp [clash] at hc
      | cons b rest' =>
        obtain ⟨x, xs, rfl, hx⟩ := matchHere_digits_elim ic rest r ha
        cases b with
        | chr d =>
          obtain ⟨y, ys, hr, hy, -⟩ := matchHere_chr_elim ic' d rest' _ hb
          simp only [List.cons.injEq] at hr
          obtain ⟨rfl, rfl⟩ := hr
          simp only [clash, Bool.not_eq_true', ← hy, canonicalize_digit _ hx] at hc
          rw [hc] at hx
          cases hx
        | digits => simp [clash] at hc
        | eos => simp [clash] at hc
        | eosOrQ => simp [clash] at hc
    | eos => simp [clash] at hc
    | eosOrQ => simp [clash] at hc

theorem disjoint_reRestInfo_reServer (p : JsString) (_hq : 63 ∉ p) (ha : reRestInfo.test p = true)
    (hb : reServer.test p = true) : False := by
  rw [test_reRestInfo p] at ha
  rw [test_reServer p] at hb
  exact clash_sound _ _ _ _ _ (by decide) ha hb

theorem disjoint_reRestInfo_reServerInfo (p : JsString) (_hq : 63 ∉ p) (ha : reRestInfo.test p = true)
    (hb : reServerInfo.test p = true) : False := by
  rw [test_reRestInfo p] at ha
  rw [test_reServerInfo p] at hb
  exact clash_sound _ _ _ _ _ (by decide) ha hb

theorem disjoint_reRestInfo_reServerSlash (p : JsString) (hq : 63 ∉ p) (ha : reRestInfo.test p = true)
    (hb : reServerSlash.test p = true) : False := by
  rw [test_reRestInfo p] at ha
  rw [test_reServerSlash p hq] at hb
  exact clash_sound _ _ _ _ _ (by decide) ha hb

theorem disjoint_reRestInfo_reLayer (p : JsString) (_hq : 63 ∉ p) (ha : reRestInfo.test p = true)
    (hb : reLayer.test p = true) : False := by
  rw [test_reRestInfo p] at ha
  rw [test_reLayer p] at hb
  exact clash_sound _ _ _ _ _ (by decide) ha hb

theorem disjoint_reRestInfo_reLayerInfo (p : JsString) (_hq : 63 ∉ p) (ha : reRestInfo.test p = true)
    (hb : reLayerInfo.test p = true) : False := by
  rw [test_reRestInfo p] at ha
  rw [test_reLayerInfo p] at hb
  exact clash_sound _ _ _ _ _ (by decide) ha hb

theorem disjoint_reRestInfo_reLayerSlash (p : JsString) (hq : 63 ∉ p) (ha : reRestInfo.test p = true)
    (hb : reLayerSlash.test p = true) : False := by
  rw [test_reRestInfo p] at ha
  rw [test_reLayerSlash p hq] at hb
  exact clash_sound _ _ _ _ _ (by decide) ha hb

theorem disjoint_reRestInfo_reLayers (p : JsString) (_hq : 63 ∉ p) (ha : reRestInfo.test p = true)
    (hb : reLayers.test p = true) : False := by
  rw [test_reRestInfo p] at ha
  rw [test_reLayers p] at hb
  exact clash_sound _ _ _ _ _ (by decide) ha hb

theorem disjoint_reServer_reLayer (p : JsString) (_hq : 63 ∉ p) (ha : reServer.test p = true)
    (hb : reLayer.test p = true) : False := by
  rw [test_reServer p] at ha
  rw [test_reLayer p] at hb
  exact clash_sound _ _ _ _ _ (by decide) ha hb

theorem disjoint_reServer_reLayerInfo (p : JsString) (_hq : 63 ∉ p) (ha : reServer.test p = true)
    (hb : reLayerInfo.test p = true) : False := by
  rw [test_reServer p] at ha
  rw [test_reLayerInfo p] at hb
  exact clash_sound _ _ _ _ _ (by decide) ha hb

theorem disjoint_reServer_reLayerSlash (p : JsString) (hq : 63 ∉ p) (ha : reServer.test p = true)
    (hb : reLayerSlash.test p = true) : False := by
  rw [test_reServer p] at ha
  rw [test_reLayerSlash p hq] at hb
  exact clash_sound _ _ _ _ _ (by decide) ha hb

theorem disjoint_reServerInfo_reLayer (p : JsString) (_hq : 63 ∉ p) (ha : reServerInfo.test p = true)
    (hb : reLayer.test p = true) : False := by
  rw [test_reServerInfo p] at ha
  rw [test_reLayer p] at hb
  exact clash_sound _ _ _ _ _ (by decide) ha hb

theorem disjoint_reServerInfo_reLayerInfo (p : JsString) (_hq : 63 ∉ p) (ha : reServerInfo.test p = true)
    (hb : reLayerInfo.test p = true) : False := by
  rw [test_reServerInfo p] at ha
  rw [test_reLayerInfo p] at hb
  exact clash_sound _ _ _ _ _ (by decide) ha hb

theorem disjoint_reServerInfo_reLayerSlash (p : JsString) (hq : 63 ∉ p) (ha : reServerInfo.test p = true)
    (hb : reLayerSlash.test p = true) : False := by
  rw [test_reServerInfo p] at ha
  rw [test_reLayerSlash p hq] at hb
  exact clash_sound _ _ _ _ _ (by decide) ha hb

theorem disjoint_reServerSlash_reLayer (p : JsString) (hq : 63 ∉ p) (ha : reServerSlash.test p = true)
    (hb : reLayer.test p = true) : False := by
  rw [test_reServerSlash p hq] at ha
  rw [test_reLayer p] at hb
  exact clash_sound _ _ _ _ _ (by decide) ha hb

theorem disjoint_reServerSlash_reLayerInfo (p : JsString) (hq : 63 ∉ p) (ha : reServerSlash.test p = true)
    (hb : reLayerInfo.test p = true) : False := by
  rw [test_reServerSlash p hq] at ha
  rw [test_reLayerInfo p] at hb
  exact clash_sound _ _ _ _ _ (by decide) ha hb

theorem disjoint_reServerSlash_reLayerSlash (p : JsString) (hq : 63 ∉ p) (ha : reServerSlash.test p = true)
    (hb : reLayerSlash.test p = true) : False := by
  rw [test_reServerSlash p hq] at ha
  rw [test_reLayerSlash p hq] at hb
  exact clash_sound _ _ _ _ _ (by decide) ha hb

theorem disjoint_reServer_reLayers (p : JsString) (_hq : 63 ∉ p) (ha : reServer.test p = true)
    (hb : reLayers.test p = true) : False := by
  rw [test_reServer p] at ha
  rw [test_reLayers p] at hb
  exact clash_sound _ _ _ _ _ (by decide) ha hb

theorem disjoint_reServerInfo_reLayers (p : JsString) (_hq : 63 ∉ p) (ha : reServerInfo.test p = true)
    (hb : reLayers.test p = true) : False := by
  rw [test_reServerInfo p] at ha
  rw [test_reLayers p] at hb
  exact clash_sound _ _ _ _ _ (by decide) ha hb

theorem disjoint_reServerSlash_reLayers (p : JsString) (hq : 63 ∉ p) (ha : reServerSlash.test p = true)
    (hb : reLayers.test p = true) : False := by
  rw [test_reServerSlash p hq] at ha
  rw [test_reLayers p] at hb
  exact clash_sound _ _ _ _ _ (by decide) ha hb

theorem disjoint_reLayer_reLayers (p : JsString) (_hq : 63 ∉ p) (ha : reLayer.test p = true)
    (hb : reLayers.test p = true) : False := by
  rw [test_reLayer p] at ha
  rw [test_reLayers p] at hb
  exact clash_sound _ _ _ _ _ (by decide) ha hb

theorem disjoint_reLayerInfo_reLayers (p : JsString) (_hq : 63 ∉ p) (ha : reLayerInfo.test p = true)
    (hb : reLayers.test p = true) : False := by
  rw [test_reLayerInfo p] at ha
  rw [test_reLayers p] at hb
  exact clash_sound _ _ _ _ _ (by decide) ha hb

theorem disjoint_reLayerSlash_reLayers (p : JsString) (hq : 63 ∉ p) (ha : reLayerSlash.test p = true)
    (hb : reLayers.test p = true) : False := by
  rw [test_reLayerSlash p hq] at ha
  rw [test_reLayers p] at hb
  exact clash_sound _ _ _ _ _ (by decide) ha hb


/-! ## Order of the branches of `execInfo` -/

theorem branchTest_cases (b : InfoRoute) (p : JsString) (h : branchTest b p = true) :
    (b = .restInfo ∧ reRestInfo.test p = true) ∨
      (b = .serverInfo ∧ (reServer.test p = true ∨ reServerInfo.test p = true ∨
        reServerSlash.test p = true)) ∨
      (b = .layerInfo ∧ (reLayer.test p = true ∨ reLayerInfo.test p = true ∨
        reLayerSlash.test p = true)) ∨
      (b = .layersInfo ∧ reLayers.test p = true) := by
  cases b with
  | restInfo => exact Or.inl ⟨rfl, h⟩
  | serverInfo =>
    simp only [branchTest, Bool.or_eq_true] at h
    exact Or.inr (Or.inl ⟨rfl, by tauto⟩)
  | layerInfo =>
    simp only [branchTest, Bool.or_eq_true] at h
    exact Or.inr (Or.inr (Or.inl ⟨rfl, by tauto⟩))
  | layersInfo => exact Or.inr (Or.inr (Or.inr ⟨rfl, h⟩))
  | methodNotSupported => simp [branchTest] at h
  | notFound => simp [branchTest] at h

theorem disjoint_restInfo_serverInfo (p : JsString) (hq : 63 ∉ p)
    (ha : reRestInfo.test p = true)
    (hb : reServer.test p = true ∨ reServerInfo.test p = true ∨ reServerSlash.test p = true) : False := by
  rcases hb with hb | hb | hb
  · exact disjoint_reRestInfo_reServer p hq ha hb
  · exact disjoint_reRestInfo_reServerInfo p hq ha hb
  · exact disjoint_reRestInfo_reServerSlash p hq ha hb

theorem disjoint_restInfo_layerInfo (p : JsString) (hq : 63 ∉ p)
    (ha : reRestInfo.test p = true)
    (hb : reLayer.test p = true ∨ reLayerInfo.test p = true ∨ reLayerSlash.test p = true) : False := by
  rcases hb with hb | hb | hb
  · exact disjoint_reRestInfo_reLayer p hq ha hb
  · exact disjoint_reRestInfo_reLayerInfo p hq ha hb
  · exact disjoint_reRestInfo_reLayerSlash p hq ha hb

theorem disjoint_restInfo_layersInfo (p : JsString) (hq : 63 ∉ p)
    (ha : reRestInfo.test p = true)
    (hb : reLayers.test p = true) : False := by
  exact disjoint_reRestInfo_reLayers p hq ha hb

theorem disjoint_serverInfo_layerInfo (p : JsString) (hq : 63 ∉ p)
    (ha : reServer.test p = true ∨ reServerInfo.test p = true ∨ reServerSlash.test p = true)
    (hb : reLayer.test p = true ∨ reLayerInfo.test p = true ∨ reLayerSlash.test p = true) : False := by
  rcases ha with ha | ha | ha
  · rcases hb with hb | hb | hb
    · exact disjoint_reServer_reLayer p hq ha hb
    · exact disjoint_reServer_reLayerInfo p hq ha hb
    · exact disjoint_reServer_reLayerSlash p hq ha hb
  · rcases hb with hb | hb | hb
    · exact disjoint_reServerInfo_reLayer p hq ha hb
    · exact disjoint_reServerInfo_reLayerInfo p hq ha hb
    · exact disjoint_reServerInfo_reLayerSlash p hq ha hb
  · rcases hb with hb | hb | hb
    · exact disjoint_reServerSlash_reLayer p hq ha hb
    · exact disjoint_reServerSlash_reLayerInfo p hq ha hb
    · exact disjoint_reServerSlash_reLayerSlash p hq ha hb

theorem disjoint_serverInfo_layersInfo (p : JsString) (hq : 63 ∉ p)
    (ha : reServer.test p = true ∨ reServerInfo.test p = true ∨ reServerSlash.test p = true)
    (hb : reLayers.test p = true) : False := by
  rcases ha with ha | ha | ha
  · exact disjoint_reServer_reLayers p hq ha hb
  · exact disjoint_reServerInfo_reLayers p hq ha hb
  · exact disjoint_reServerSlash_reLayers p hq ha hb

theorem disjoint_layerInfo_layersInfo (p : JsString) (hq : 63 ∉ p)
    (ha : reLayer.test p = true ∨ reLayerInfo.test p = true ∨ reLayerSlash.test p = true)
    (hb : reLayers.test p = true) : False := by
  rcases ha with ha | ha | ha
  · exact disjoint_reLayer_reLayers p hq ha hb
  · exact disjoint_reLayerInfo_reLayers p hq ha hb
  · exact disjoint_reLayerSlash_reLayers p hq ha hb

/-- On a path without `?` at most one of the four specific branches applies. -/
theorem branchTest_unique (p : JsString) (hq : 63 ∉ p) (a b : InfoRoute)
    (ha : branchTest a p = true) (hb : branchTest b p = true) : a = b := by
  rcases branchTest_cases a p ha with ⟨rfl, ka⟩ | ⟨rfl, ka⟩ | ⟨rfl, ka⟩ | ⟨rfl, ka⟩
  · rcases branchTest_cases b p hb with ⟨rfl, kb⟩ | ⟨rfl, kb⟩ | ⟨rfl, kb⟩ | ⟨rfl, kb⟩
    · rfl
    · exact (disjoint_restInfo_serverInfo p hq ka kb).elim
    · exact (disjoint_restInfo_layerInfo p hq ka kb).elim
    · exact (disjoint_restInfo_layersInfo p hq ka kb).elim
  · rcases branchTest_cases b p hb with ⟨rfl, kb⟩ | ⟨rfl, kb⟩ | ⟨rfl, kb⟩ | ⟨rfl, kb⟩
    · exact (disjoint_restInfo_serverInfo p hq kb ka).elim
    · rfl
    · exact (disjoint_serverInfo_layerInfo p hq ka kb).elim
    · exact (disjoint_serverInfo_layersInfo p hq ka kb).elim
  · rcases branchTest_cases b p hb with ⟨rfl, kb⟩ | ⟨rfl, kb⟩ | ⟨rfl, kb⟩ | ⟨rfl, kb⟩
    · exact (disjoint_restInfo_layerInfo p hq kb ka).elim
    · exact (disjoint_serverInfo_layerInfo p hq kb ka).elim
    · rfl
    · exact (disjoint_layerInfo_layersInfo p hq ka kb).elim
  · rcases branchTest_cases b p hb with ⟨rfl, kb⟩ | ⟨rfl, kb⟩ | ⟨rfl, kb⟩ | ⟨rfl, kb⟩
    · exact (disjoint_restInfo_layersInfo p hq kb ka).elim
    · exact (disjoint_serverInfo_layersInfo p hq kb ka).elim
    · exact (disjoint_layerInfo_layersInfo p hq kb ka).elim
    · rfl

theorem find_unique {α : Type} (pred : α → Bool) (l : List α) (a : α) (ha : a ∈ l)
    (hp : pred a = true) (huniq : ∀ b, pred b = true → b = a) : l.find? pred = some a := by
  induction l with
  | nil => cases ha
  | cons x xs ih =>
    cases hx : pred x with
    | true =>
      rw [List.find?_cons_of_pos _ hx, huniq x hx]
    | false =>
      rw [List.find?_cons_of_neg _ (by simp [hx])]
      rcases List.mem_cons.1 ha with h | h
      · rw [← h, hp] at hx
        cases hx
      · exact ih h

theorem find_perm {α : Type} (pred : α → Bool) (l l' : List α) (hperm : l.Perm l')
    (huniq : ∀ a b, pred a = true → pred b = true → a = b) :
    l.find? pred = l'.find? pred := by
  cases h : l'.find? pred with
  | none =>
    rw [List.find?_eq_none] at h ⊢
    intro x hx
    exact h x (hperm.mem_iff.1 hx)
  | some a =>
    have hp : pred a = true := List.find?_some h
    have hm : a ∈ l' := List.mem_of_find?_eq_some h
    exact find_unique pred l a (hperm.mem_iff.2 hm) hp (fun b hb => huniq b a hb hp)

/-- The chain of `execInfo` is the chain with the branches in the order of the source. -/
theorem classify_eq_classifyIn (p : JsString) : classify p = classifyIn sourceOrder p := by
  unfold classify classifyIn sourceOrder
  simp only [List.find?, branchTest]
  cases reRestInfo.test p <;>
    cases (reServer.test p || reServerInfo.test p || reServerSlash.test p) <;>
    cases (reLayer.test p || reLayerInfo.test p || reLayerSlash.test p) <;>
    cases reLayers.test p <;> rfl

theorem matchHere_of_eqIgnoringCase (cs mid post : JsString)
    (h : EqIgnoringCase mid cs) : matchHere true (cs.map Atom.chr) (mid ++ post) = true := by
  induction cs generalizing mid with
  | nil => rfl
  | cons c cs ih =>
    cases mid with
    | nil => simp [EqIgnoringCase] at h
    | cons x xs =>
      simp only [EqIgnoringCase, List.map_cons, List.cons.injEq] at h
      rw [List.map_cons, List.cons_append, matchHere_chr_cons, ih xs h.2, Bool.and_true]
      simp [charMatches, h.1]

/-- Every path that a pattern starting with `/FeatureServer` matches is matched by the
catch-all pattern too. -/
theorem catchAll_of_search (ic : Bool) (rest : List Atom) (p : JsString)
    (h : searchFrom ic ((js "/FeatureServer").map Atom.chr ++ rest) p = true) :
    reFeatureServer.test p = true := by
  obtain ⟨pre, t, rfl, hm⟩ := (searchFrom_iff _ _ _).1 h
  obtain ⟨mid, post, rfl, hmid, -⟩ := matchHere_chars ic _ rest t hm
  exact searchFrom_append _ _ pre _ (matchHere_of_eqIgnoringCase _ mid post hmid)

theorem catchAll_of_branch (b : InfoRoute) (p : JsString)
    (hb : b = .serverInfo ∨ b = .layerInfo ∨ b = .layersInfo)
    (h : branchTest b p = true) : reFeatureServer.test p = true := by
  rcases branchTest_cases b p h with ⟨rfl, _⟩ | ⟨_, h⟩ | ⟨_, h⟩ | ⟨_, h⟩
  · rcases hb with hb | hb | hb <;> cases hb
  · rcases h with h | h | h
    · exact catchAll_of_search true [Atom.eos] p h
    · exact catchAll_of_search true (chars "/info" ++ [Atom.eos]) p h
    · exact catchAll_of_search false (chars "/" ++ [Atom.eosOrQ]) p h
  · rcases h with h | h | h
    · exact catchAll_of_search true (chars "/" ++ [Atom.digits, Atom.eos]) p h
    · exact catchAll_of_search true
        (chars "/" ++ [Atom.digits] ++ chars "/info" ++ [Atom.eos]) p h
    · exact catchAll_of_search false
        (chars "/" ++ [Atom.digits] ++ chars "/" ++ [Atom.eosOrQ]) p h
  · exact catchAll_of_search true (chars "/layers" ++ [Atom.eos]) p h

/-- C17: on a path as `execInfo` classifies it (the part of the url before any `?`), at
most one of the four specific branches Root-Info, Server-Info, Layer-Info and
Layers-List-Info applies, so testing them in any order gives the classification of
`execInfo`; every path of the Server-Info, Layer-Info and Layers-List-Info branches also
matches the catch-all `/\/FeatureServer/i`, which therefore has to be tested after them. -/
theorem info_branches_disjoint (p : JsString) (hq : 63 ∉ p) :
    (∀ a b, branchTest a p = true → branchTest b p = true → a = b) ∧
      (∀ order : List InfoRoute, order.Perm sourceOrder → classifyIn order p = classify p) ∧
      (∀ b, b = .serverInfo ∨ b = .layerInfo ∨ b = .layersInfo → branchTest b p = true →
        reFeatureServer.test p = true) := by
  refine ⟨branchTest_unique p hq, ?_, fun b hb h => catchAll_of_branch b p hb h⟩
  intro order hperm
  rw [classify_eq_classifyIn]
  unfold classifyIn
  rw [find_perm (fun b => branchTest b p) order sourceOrder hperm (branchTest_unique p hq)]

theorem info_branches_disjoint_witness :
    (∀ a b, branchTest a (js "/x/FeatureServer/3/info") = true →
        branchTest b (js "/x/FeatureServer/3/info") = true → a = b) ∧
      (∀ order : List InfoRoute, order.Perm sourceOrder →
        classifyIn order (js "/x/FeatureServer/3/info")
          = classify (js "/x/FeatureServer/3/info")) ∧
      (∀ b, b = .serverInfo ∨ b = .layerInfo ∨ b = .layersInfo →
        branchTest b (js "/x/FeatureServer/3/info") = true →
        reFeatureServer.test (js "/x/FeatureServer/3/info") = true) :=
  info_branches_disjoint (js "/x/FeatureServer/3/info") (by decide)

theorem truthyAndNaN_error (x : JsValue) (e : JsError) (h : truthyAndNaN x = .error e) :
    isNaN x = .error e := by
  unfold truthyAndNaN at h
  split at h
  · exact h
  · cases h

/-- Validation raises only when `isNaN` raises on the parsed `limit` or on the parsed
`resultRecordCount`. -/
theorem normalize_threw (rawQuery : RawQuery) (metadata : JsValue) (e : JsError)
    (h : normalize rawQuery metadata = .threw e) :
    isNaN (getKey (parseQuery rawQuery) (js "limit")) = .error e ∨
      isNaN (getKey (parseQuery rawQuery) (js "resultRecordCount")) = .error e := by
  unfold normalize at h
  simp only at h
  split at h
  · rename_i e' he
    cases h
    exact Or.inl (truthyAndNaN_error _ _ he)
  · cases h
  · split at h
    · rename_i e' he
      cases h
      exact Or.inr (truthyAndNaN_error _ _ he)
    · cases h
    · split at h <;> cases h

/-! ## Paths compared without regard to case -/

theorem matchHere_chars_intro (cs mid post : JsString) (rest : List Atom)
    (h : EqIgnoringCase mid cs) (hrest : matchHere true rest post = true) :
    matchHere true (cs.map Atom.chr ++ rest) (mid ++ post) = true := by
  induction cs generalizing mid with
  | nil =>
    cases mid with
    | nil => exact hrest
    | cons x xs => simp [EqIgnoringCase] at h
  | cons c cs ih =>
    cases mid with
    | nil => simp [EqIgnoringCase] at h
    | cons x xs =>
      simp only [EqIgnoringCase, List.map_cons, List.cons.injEq] at h
      rw [List.map_cons, List.cons_append, List.cons_append, matchHere_chr_cons, ih xs h.2,
        Bool.and_true]
      simp [charMatches, h.1]

theorem split_of_endsWith (w p : JsString) (h : EndsWithIgnoringCase w p) :
    ∃ pre suf, p = pre ++ suf ∧ EqIgnoringCase suf w := by
  obtain ⟨t, ht⟩ := h
  obtain ⟨pre, suf, hp, -, hsuf⟩ := List.map_eq_append_iff.1 ht.symm
  exact ⟨pre, suf, hp, hsuf⟩

theorem split_of_contains (w p : JsString) (h : ContainsIgnoringCase w p) :
    ∃ pre mid post, p = pre ++ mid ++ post ∧ EqIgnoringCase mid w := by
  obtain ⟨s, t, ht⟩ := h
  obtain ⟨l, post, hp, hl, -⟩ := List.map_eq_append_iff.1 ht.symm
  obtain ⟨pre, mid, hl', -, hmid⟩ := List.map_eq_append_iff.1 hl
  exact ⟨pre, mid, post, by rw [hp, hl'], hmid⟩

/-- A path that ends with `w` up to case is matched by the pattern `w$` with the `i` flag. -/
theorem search_of_endsWith (w p : JsString) (h : EndsWithIgnoringCase w p) :
    searchFrom true (w.map Atom.chr ++ [Atom.eos]) p = true := by
  obtain ⟨pre, suf, rfl, hsuf⟩ := split_of_endsWith w p h
  have hm := matchHere_chars_intro w suf [] [Atom.eos] hsuf rfl
  rw [List.append_nil] at hm
  exact searchFrom_append _ _ pre suf hm

/-- A path that contains `/FeatureServer` up to case is matched by the catch-all pattern. -/
theorem catchAll_of_contains (p : JsString)
    (h : ContainsIgnoringCase (js "/FeatureServer") p) : reFeatureServer.test p = true := by
  obtain ⟨pre, mid, post, rfl, hmid⟩ := split_of_contains _ p h
  rw [List.append_assoc]
  have hm := matchHere_chars_intro (js "/FeatureServer") mid post [] hmid rfl
  rw [List.append_nil] at hm
  exact searchFrom_append _ _ pre _ hm

/-- On a path without `?`, the branch of `execInfo` whose condition holds is the one
`classify` answers. -/
theorem classify_of_branch (p : JsString) (hq : 63 ∉ p) (b : InfoRoute)
    (hb : b ∈ sourceOrder) (h : branchTest b p = true) : classify p = b := by
  rw [classify_eq_classifyIn]
  unfold classifyIn
  rw [find_unique (fun b => branchTest b p) sourceOrder b hb h
    (fun c hc => branchTest_unique p hq c b hc h)]

/-- When the lint call returns, validation passes and no method token is one that `route`
handles itself, `route` answers as `execInfo` classifies the path. -/
theorem route_info (host : Host) (ops : Ops) (req : Request) (geojson : JsValue)
    (query : Query) (p : JsString) (hlint : lint host geojson = .ok ())
    (hnorm : normalize (req.query.getD []) (metadataOf geojson) = .ok query)
    (hquery : methodOf req ≠ some (js "query"))
    (hrend : methodOf req ≠ some (js "generateRenderer"))
    (hpath : requestPath req = some p) :
    route host ops req geojson
      = invokeInfo ops (classify p) query (req.params.getD []) (sourceOf geojson) := by
  rw [route_lint_returns host ops req geojson hlint]
  exact afterLint_info ops req geojson query p hnorm hquery hrend hpath

/-- A path that ends, up to case, with `/FeatureServer/<digits>` or with
`/FeatureServer/<digits>/info`, or in this very case with `/FeatureServer/<digits>/`, is
classified as Layer-Info. -/
theorem classify_layer_of_path (p : JsString) (hq : 63 ∉ p)
    (h : (∃ pre w ds, p = pre ++ w ++ ds ∧ EqIgnoringCase w (js "/FeatureServer/") ∧
          ds ≠ [] ∧ ∀ d ∈ ds, isDecDigit d = true) ∨
      (∃ pre w ds v, p = pre ++ w ++ ds ++ v ∧ EqIgnoringCase w (js "/FeatureServer/") ∧
          EqIgnoringCase v (js "/info") ∧ ds ≠ [] ∧ ∀ d ∈ ds, isDecDigit d = true) ∨
      (∃ pre ds, p = pre ++ js "/FeatureServer/" ++ ds ++ js "/" ∧
          ds ≠ [] ∧ ∀ d ∈ ds, isDecDigit d = true)) :
    classify p = .layerInfo := by
  rcases h with ⟨pre, w, ds, rfl, hw, hne, hall⟩ | ⟨pre, w, ds, v, rfl, hw, hv, hne, hall⟩ |
    ⟨pre, ds, rfl, hne, hall⟩
  · apply classify_of_branch _ hq _ (by decide)
    have hd : matchHere true [Atom.digits, Atom.eos] ds = true := by
      have := matchHere_digits_append true [Atom.eos] ds [] hne hall rfl
      rwa [List.append_nil] at this
    have hm := matchHere_chars_intro (js "/FeatureServer/") w ds [Atom.digits, Atom.eos] hw hd
    have ht : reLayer.test (pre ++ w ++ ds) = true := by
      rw [List.append_assoc]
      exact searchFrom_append _ _ pre _ hm
    simp only [branchTest, ht, Bool.true_or]
  · apply classify_of_branch _ hq _ (by decide)
    have hv' : matchHere true ((js "/info").map Atom.chr ++ [Atom.eos]) v = true := by
      have := matchHere_chars_intro (js "/info") v [] [Atom.eos] hv rfl
      rwa [List.append_nil] at this
    have hd : matchHere true (Atom.digits :: ((js "/info").map Atom.chr ++ [Atom.eos]))
        (ds ++ v) = true := matchHere_digits_append true _ ds v hne hall hv'
    have hm := matchHere_chars_intro (js "/FeatureServer/") w (ds ++ v) _ hw hd
    have ht : reLayerInfo.test (pre ++ w ++ ds ++ v) = true := by
      rw [List.append_assoc, List.append_assoc]
      exact searchFrom_append _ _ pre _ hm
    simp only [branchTest, ht, Bool.true_or, Bool.or_true]
  · exact classify_layer_slash pre ds hne hall hq

/-- A path that ends, up to case, with `/FeatureServer` or with `/FeatureServer/info`, or in
this very case with `/FeatureServer/`, is classified as Server-Info. -/
theorem classify_server_of_path (p : JsString) (hq : 63 ∉ p)
    (h : EndsWithIgnoringCase (js "/FeatureServer") p ∨
      EndsWithIgnoringCase (js "/FeatureServer/info") p ∨ js "/FeatureServer/" <:+ p) :
    classify p = .serverInfo := by
  rcases h with h | h | ⟨pre, rfl⟩
  · apply classify_of_branch _ hq _ (by decide)
    have ht : reServer.test p = true := search_of_endsWith _ p h
    simp only [branchTest, ht, Bool.true_or]
  · apply classify_of_branch _ hq _ (by decide)
    have ht : reServerInfo.test p = true := search_of_endsWith _ p h
    simp only [branchTest, ht, Bool.true_or, Bool.or_true]
  · exact classify_server_slash pre

/-- A path that ends with `/FeatureServer/layers` up to case is classified as
Layers-List-Info, and none of the three patterns with a numeric layer id matches it. -/
theorem classify_layers_of_path (p : JsString) (hq : 63 ∉ p)
    (h : EndsWithIgnoringCase (js "/FeatureServer/layers") p) :
    classify p = .layersInfo ∧ reLayer.test p = false ∧ reLayerInfo.test p = false ∧
      reLayerSlash.test p = false := by
  have ht : reLayers.test p = true := search_of_endsWith _ p h
  refine ⟨classify_of_branch p hq _ (by decide) ht, ?_, ?_, ?_⟩
  · exact Bool.eq_false_iff.2 (fun h' => disjoint_reLayer_reLayers p hq h' ht)
  · exact Bool.eq_false_iff.2 (fun h' => disjoint_reLayerInfo_reLayers p hq h' ht)
  · exact Bool.eq_false_iff.2 (fun h' => disjoint_reLayerSlash_reLayers p hq h' ht)

/-- The examples of the limit rule: `resultRecordCount = "10"` alone gives 10, a
`maxRecordCount` of 500 alone gives 500, and nothing at all gives 2000. -/
theorem normalize_limit_examples :
    normalize [(js "resultRecordCount", js "10")] (.obj [])
        = .ok [(js "resultRecordCount", .nat 10), (js "limit", .nat 10)] ∧
      normalize [] (.obj [(js "maxRecordCount", .nat 500)]) = .ok [(js "limit", .nat 500)] ∧
      normalize [] (.obj []) = .ok [(js "limit", .nat 2000)] :=
  ⟨rfl, rfl, rfl⟩

/-! ## The claims -/

/-- C1, where the code departs from it: the `limit` value `{"toString":1}` parses to an
object with an own `toString` property. It is present and is no number, yet `isNaN` raises a
TypeError on it instead of answering, and `route` delivers no response at all: the
exception escapes, whatever the host, the path, the method token and the feature source
are. -/
theorem route_limit_object_throws :
    getKey (parseQuery [(js "limit", js "\x7b\"toString\":1\x7d")]) (js "limit")
        = .obj [(js "toString", .nat 1)] ∧
      isNaN (.obj [(js "toString", .nat 1)]) = .error .typeError ∧
      ∀ (host : Host) (ops : Ops) (url originalUrl : Option JsString)
        (params : Option Params) (geojson : JsValue),
        route host ops
            ⟨url, originalUrl, some [(js "limit", js "\x7b\"toString\":1\x7d")], params⟩ geojson
          = ⟨[], [], some .typeError⟩ := by
  refine ⟨rfl, rfl, ?_⟩
  intro host ops url originalUrl params geojson
  unfold route
  cases lint host geojson with
  | error e => cases e; rfl
  | ok u => rfl

/-- C2 as stated fails: with `limit = "0"` present in the raw query (and nothing else) the
normalized `limit` is 2000, not the explicit value 0 that a rule by presence names. -/
theorem normalize_limit_zero_counterexample :
    normalize [(js "limit", js "0")] (.obj []) = .ok [(js "limit", .nat 2000)] ∧
      limitByPresence [(js "limit", js "0")] (.obj []) = .num (.dec false 0 0) ∧
      getKey [(js "limit", .nat 2000)] (js "limit")
        ≠ limitByPresence [(js "limit", js "0")] (.obj []) := by
  refine ⟨rfl, rfl, ?_⟩
  intro h
  have h' : JsValue.num (.dec false 2000 0) = JsValue.num (.dec false 0 0) := h
  injection h' with h'
  injection h' with _ h' _
  exact absurd h' (by decide)

/-- C2, amended: for every request that passes validation the normalized `limit` is the
parsed explicit `limit` if that is truthy, else the parsed `resultRecordCount` if that is
truthy, else `metadata.maxRecordCount` if that is truthy, else 2000. -/
theorem normalize_limit_priority (rawQuery : RawQuery) (metadata : JsValue) (query : Query)
    (h : normalize rawQuery metadata = .ok query) :
    getKey query (js "limit") =
      if truthy (getKey (parseQuery rawQuery) (js "limit")) = true then
        getKey (parseQuery rawQuery) (js "limit")
      else if truthy (getKey (parseQuery rawQuery) (js "resultRecordCount")) = true then
        getKey (parseQuery rawQuery) (js "resultRecordCount")
      else if truthy (metadata.get (js "maxRecordCount")) = true then
        metadata.get (js "maxRecordCount")
      else JsValue.nat 2000 := by
  rw [normalize_limit_eq rawQuery metadata query h]
  simp only [jsOr]

theorem normalize_limit_priority_witness :
    getKey [(js "resultRecordCount", .nat 10), (js "limit", .nat 10)] (js "limit") =
      if truthy (getKey (parseQuery [(js "resultRecordCount", js "10")]) (js "limit")) = true then
        getKey (parseQuery [(js "resultRecordCount", js "10")]) (js "limit")
      else if truthy (getKey (parseQuery [(js "resultRecordCount", js "10")])
          (js "resultRecordCount")) = true then
        getKey (parseQuery [(js "resultRecordCount", js "10")]) (js "resultRecordCount")
      else if truthy ((JsValue.obj []).get (js "maxRecordCount")) = true then
        (JsValue.obj []).get (js "maxRecordCount")
      else JsValue.nat 2000 :=
  normalize_limit_priority [(js "resultRecordCount", js "10")] (.obj [])
    [(js "resultRecordCount", .nat 10), (js "limit", .nat 10)] rfl

/-- C4, where the code departs from it: `/featureserver/` and `/FeatureServer/` are equal
up to case, yet the first is answered with 400 `Method not supported` and the second with
the Server-Info payload; likewise `/featureserver/3/` against `/FeatureServer/3/`. The two
patterns with `($|\?)` carry no `i` flag. -/
theorem classify_case_sensitive_slash :
    EqIgnoringCase (js "/featureserver/") (js "/FeatureServer/") ∧
      classify (js "/FeatureServer/") = .serverInfo ∧
      classify (js "/featureserver/") = .methodNotSupported ∧
      route sampleHost sampleOps (sampleRequest "/FeatureServer/" [] none) .undefined
        = ⟨[.serverInfo (.obj []) [(js "id", js "3")]], [⟨200, .str (js "server")⟩], none⟩ ∧
      route sampleHost sampleOps (sampleRequest "/featureserver/" [] none) .undefined
        = ⟨[], [⟨400, errorBody (js "Method not supported")⟩], none⟩ ∧
      EqIgnoringCase (js "/featureserver/3/") (js "/FeatureServer/3/") ∧
      classify (js "/FeatureServer/3/") = .layerInfo ∧
      classify (js "/featureserver/3/") = .methodNotSupported :=
  ⟨rfl, by decide, by decide, rfl, rfl, rfl, by decide, by decide⟩

/-- C10 as stated fails: a failure that carries the code 0 is delivered with status 500,
not with its code. -/
theorem route_failure_code_zero_counterexample :
    Call.run (failingOps ⟨js "boom", some 0⟩) (.query (.obj []) [(js "limit", .nat 2000)])
        = .error ⟨js "boom", some 0⟩ ∧
      route sampleHost (failingOps ⟨js "boom", some 0⟩) (sampleRequest "/x" [] (some "query"))
          .undefined
        = ⟨[.query (.obj []) [(js "limit", .nat 2000)]], [⟨500, errorBody (js "boom")⟩], none⟩ :=
  ⟨rfl, rfl⟩

/-- C10, amended: when the collaborator that `route` calls raises a failure, exactly one
response is delivered; its body is `{ error: message }` and nothing else, and its status is
the failure's code when a code is present and not 0, and 500 when the code is absent or 0. -/
theorem route_failure_response (host : Host) (ops : Ops) (req : Request) (geojson : JsValue)
    (call : Call) (e : Failure) (hcall : call ∈ (route host ops req geojson).calls)
    (hfail : call.run ops = .error e) :
    ∃ status,
      (route host ops req geojson).delivered = [⟨status, .obj [(js "error", .str e.message)]⟩] ∧
      (∀ c, e.code = some c → c ≠ 0 → status = c) ∧
      (e.code = none ∨ e.code = some 0 → status = 500) := by
  have hlint : lint host geojson = .ok () := by
    cases hl : lint host geojson with
    | error e' =>
      rw [route_lint_raises host ops req geojson e' hl] at hcall
      cases hcall
    | ok u => rfl
  rw [route_lint_returns host ops req geojson hlint] at hcall ⊢
  rcases afterLint_shape ops req geojson with h | ⟨c, h⟩
  · rw [h] at hcall
    cases hcall
  · rw [h, respond_calls] at hcall
    have hc : call = c := List.mem_singleton.1 hcall
    subst hc
    rw [h, hfail]
    refine ⟨failureStatus e, rfl, ?_, ?_⟩
    · intro c hc hne
      simp only [failureStatus, hc, hne, if_false]
    · rintro (hc | hc) <;> simp [failureStatus, hc]

theorem route_failure_response_witness :
    ∃ status,
      (route sampleHost (failingOps ⟨js "gone", some 404⟩)
          (sampleRequest "/x" [] (some "query")) .undefined).delivered
        = [⟨status, .obj [(js "error", .str (js "gone"))]⟩] ∧
      (∀ c, (⟨js "gone", some 404⟩ : Failure).code = some c → c ≠ 0 → status = c) ∧
      ((⟨js "gone", some 404⟩ : Failure).code = none ∨
        (⟨js "gone", some 404⟩ : Failure).code = some 0 → status = 500) :=
  route_failure_response sampleHost (failingOps ⟨js "gone", some 404⟩)
    (sampleRequest "/x" [] (some "query")) .undefined
    (.query (.obj []) [(js "limit", .nat 2000)]) ⟨js "gone", some 404⟩
    (List.Mem.head _) rfl

/-- What holds of Layer-Info: when the lint call returns, validation passes and the method
token is neither `query` nor `generateRenderer`, a path that ends, up to case, with
`/FeatureServer/<digits>` or `/FeatureServer/<digits>/info`, or in this very case with
`/FeatureServer/<digits>/`, is answered by `layerInfo`, called with the feature source and
the route params. -/
theorem route_layerInfo_of_path (host : Host) (ops : Ops) (req : Request) (geojson : JsValue)
    (query : Query) (p : JsString) (hlint : lint host geojson = .ok ())
    (hnorm : normalize (req.query.getD []) (metadataOf geojson) = .ok query)
    (hquery : methodOf req ≠ some (js "query"))
    (hrend : methodOf req ≠ some (js "generateRenderer"))
    (hpath : requestPath req = some p)
    (h : (∃ pre w ds, p = pre ++ w ++ ds ∧ EqIgnoringCase w (js "/FeatureServer/") ∧
          ds ≠ [] ∧ ∀ d ∈ ds, isDecDigit d = true) ∨
      (∃ pre w ds v, p = pre ++ w ++ ds ++ v ∧ EqIgnoringCase w (js "/FeatureServer/") ∧
          EqIgnoringCase v (js "/info") ∧ ds ≠ [] ∧ ∀ d ∈ ds, isDecDigit d = true) ∨
      (∃ pre ds, p = pre ++ js "/FeatureServer/" ++ ds ++ js "/" ∧
          ds ≠ [] ∧ ∀ d ∈ ds, isDecDigit d = true)) :
    (∀ payload, ops.layerInfo (sourceOf geojson) (req.params.getD []) = .ok payload →
        route host ops req geojson
          = ⟨[.layerInfo (sourceOf geojson) (req.params.getD [])], [⟨200, payload⟩], none⟩) ∧
      (∀ e, ops.layerInfo (sourceOf geojson) (req.params.getD []) = .error e →
        route host ops req geojson
          = ⟨[.layerInfo (sourceOf geojson) (req.params.getD [])],
              [⟨failureStatus e, .obj [(js "error", .str e.message)]⟩], none⟩) := by
  have hr := route_info host ops req geojson query p hlint hnorm hquery hrend hpath
  rw [classify_layer_of_path p (requestPath_no_question req p hpath) h] at hr
  constructor
  · intro payload hp
    rw [hr]
    simp only [invokeInfo, hp, respond]
  · intro e he
    rw [hr]
    simp only [invokeInfo, he, respond, errorBody]

/-- What holds of Server-Info: when the lint call returns, validation passes and the
method token is neither `query` nor `generateRenderer`, a path that ends, up to case, with
`/FeatureServer` or `/FeatureServer/info`, or in this very case with `/FeatureServer/`, is
answered by `serverInfo`, called with the feature source and the route params. -/
theorem route_serverInfo_of_path (host : Host) (ops : Ops) (req : Request)
    (geojson : JsValue) (query : Query) (p : JsString) (hlint : lint host geojson = .ok ())
    (hnorm : normalize (req.query.getD []) (metadataOf geojson) = .ok query)
    (hquery : methodOf req ≠ some (js "query"))
    (hrend : methodOf req ≠ some (js "generateRenderer"))
    (hpath : requestPath req = some p)
    (h : EndsWithIgnoringCase (js "/FeatureServer") p ∨
      EndsWithIgnoringCase (js "/FeatureServer/info") p ∨ js "/FeatureServer/" <:+ p) :
    (∀ payload, ops.serverInfo (sourceOf geojson) (req.params.getD []) = .ok payload →
        route host ops req geojson
          = ⟨[.serverInfo (sourceOf geojson) (req.params.getD [])], [⟨200, payload⟩], none⟩) ∧
      (∀ e, ops.serverInfo (sourceOf geojson) (req.params.getD []) = .error e →
        route host ops req geojson
          = ⟨[.serverInfo (sourceOf geojson) (req.params.getD [])],
              [⟨failureStatus e, .obj [(js "error", .str e.message)]⟩], none⟩) := by
  have hr := route_info host ops req geojson query p hlint hnorm hquery hrend hpath
  rw [classify_server_of_path p (requestPath_no_question req p hpath) h] at hr
  constructor
  · intro payload hp
    rw [hr]
    simp only [invokeInfo, hp, respond]
  · intro e he
    rw [hr]
    simp only [invokeInfo, he, respond, errorBody]

/-- C3, where the code departs from it: the path `/rest/services/x/featureserver/3/` ends
with `/FeatureServer/3/` up to case, the lint call returns, validation passes and there is
no method token, yet `route` answers with 400 `Method not supported` and does not call
`layerInfo`; the same path written `/FeatureServer/3/` is answered by `layerInfo`. The
pattern `/\/FeatureServer\/\d+\/($|\?)/` carries no `i` flag. -/
theorem route_layer_slash_lowercase :
    EndsWithIgnoringCase (js "/FeatureServer/3/") (js "/rest/services/x/featureserver/3/") ∧
      requestPath (sampleRequest "/rest/services/x/featureserver/3/" [] none)
        = some (js "/rest/services/x/featureserver/3/") ∧
      lint sampleHost .undefined = .ok () ∧
      normalize [] (metadataOf .undefined) = .ok [(js "limit", .nat 2000)] ∧
      methodOf (sampleRequest "/rest/services/x/featureserver/3/" [] none) = none ∧
      (∀ ops : Ops,
        route sampleHost ops (sampleRequest "/rest/services/x/featureserver/3/" [] none)
            .undefined
          = ⟨[], [⟨400, .obj [(js "error", .str (js "Method not supported"))]⟩], none⟩) ∧
      route sampleHost sampleOps (sampleRequest "/rest/services/x/FeatureServer/3/" [] none)
          .undefined
        = ⟨[.layerInfo (.obj []) [(js "id", js "3")]], [⟨200, .str (js "layer")⟩], none⟩ :=
  ⟨by decide, rfl, rfl, rfl, rfl, fun _ => rfl, rfl⟩

/-- C5, where the code departs from it: the path `/rest/services/x/featureserver/` ends
with `/FeatureServer/` up to case, the lint call returns, validation passes and there is no
method token, yet `route` answers with 400 `Method not supported` and does not call
`serverInfo`; the same path written `/FeatureServer/` is answered by `serverInfo`. The
pattern `/\/FeatureServer\/($|\?)/` carries no `i` flag. -/
theorem route_server_slash_lowercase :
    EndsWithIgnoringCase (js "/FeatureServer/") (js "/rest/services/x/featureserver/") ∧
      requestPath (sampleRequest "/rest/services/x/featureserver/" [] none)
        = some (js "/rest/services/x/featureserver/") ∧
      lint sampleHost .undefined = .ok () ∧
      normalize [] (metadataOf .undefined) = .ok [(js "limit", .nat 2000)] ∧
      methodOf (sampleRequest "/rest/services/x/featureserver/" [] none) = none ∧
      (∀ ops : Ops,
        route sampleHost ops (sampleRequest "/rest/services/x/featureserver/" [] none)
            .undefined
          = ⟨[], [⟨400, .obj [(js "error", .str (js "Method not supported"))]⟩], none⟩) ∧
      route sampleHost sampleOps (sampleRequest "/rest/services/x/FeatureServer/" [] none)
          .undefined
        = ⟨[.serverInfo (.obj []) [(js "id", js "3")]], [⟨200, .str (js "server")⟩], none⟩ :=
  ⟨by decide, rfl, rfl, rfl, rfl, fun _ => rfl, rfl⟩

/-- C6: for a request that passes normalization (the lint call returns and validation
passes) and whose method token is neither `query` nor `generateRenderer`, a path that ends
with `/FeatureServer/layers`, compared without regard to case, matches none of the three
numeric-layer patterns and is classified as Layers-List-Info: `route` calls `layersInfo`
with the feature source and the normalized query and nothing else, so `layerInfo` is not
called, and it delivers 200 with the payload, or the status and message of the failure. -/
theorem route_layersInfo (host : Host) (ops : Ops) (req : Request) (geojson : JsValue)
    (query : Query) (p : JsString) (hlint : lint host geojson = .ok ())
    (hnorm : normalize (req.query.getD []) (metadataOf geojson) = .ok query)
    (hquery : methodOf req ≠ some (js "query"))
    (hrend : methodOf req ≠ some (js "generateRenderer"))
    (hpath : requestPath req = some p)
    (hends : EndsWithIgnoringCase (js "/FeatureServer/layers") p) :
    (reLayer.test p = false ∧ reLayerInfo.test p = false ∧ reLayerSlash.test p = false) ∧
      classify p = .layersInfo ∧
      (route host ops req geojson).calls = [.layersInfo (sourceOf geojson) query] ∧
      (∀ payload, ops.layersInfo (sourceOf geojson) query = .ok payload →
        route host ops req geojson
          = ⟨[.layersInfo (sourceOf geojson) query], [⟨200, payload⟩], none⟩) ∧
      (∀ e, ops.layersInfo (sourceOf geojson) query = .error e →
        route host ops req geojson
          = ⟨[.layersInfo (sourceOf geojson) query],
              [⟨failureStatus e, .obj [(js "error", .str e.message)]⟩], none⟩) := by
  have hq := requestPath_no_question req p hpath
  obtain ⟨hc, h1, h2, h3⟩ := classify_layers_of_path p hq hends
  have hr := route_info host ops req geojson query p hlint hnorm hquery hrend hpath
  rw [hc] at hr
  refine ⟨⟨h1, h2, h3⟩, hc, ?_, ?_, ?_⟩
  · rw [hr]
    simp only [invokeInfo, respond_calls]
  · intro payload hp
    rw [hr]
    simp only [invokeInfo, hp, respond]
  · intro e he
    rw [hr]
    simp only [invokeInfo, he, respond, errorBody]

theorem route_layersInfo_witness :
    (reLayer.test (js "/rest/services/x/featureserver/LAYERS") = false ∧
        reLayerInfo.test (js "/rest/services/x/featureserver/LAYERS") = false ∧
        reLayerSlash.test (js "/rest/services/x/featureserver/LAYERS") = false) ∧
      classify (js "/rest/services/x/featureserver/LAYERS") = .layersInfo ∧
      route sampleHost sampleOps
          (sampleRequest "/rest/services/x/featureserver/LAYERS" [] none) .undefined
        = ⟨[.layersInfo (.obj []) [(js "limit", .nat 2000)]], [⟨200, .str (js "layers")⟩],
            none⟩ ∧
      route sampleHost (failingOps ⟨js "gone", some 404⟩)
          (sampleRequest "/rest/services/x/featureserver/LAYERS" [] none) .undefined
        = ⟨[.layersInfo (.obj []) [(js "limit", .nat 2000)]],
            [⟨404, .obj [(js "error", .str (js "gone"))]⟩], none⟩ :=
  ⟨(route_layersInfo sampleHost sampleOps
      (sampleRequest "/rest/services/x/featureserver/LAYERS" [] none) .undefined
      [(js "limit", .nat 2000)] (js "/rest/services/x/featureserver/LAYERS") rfl rfl
      (by decide) (by decide) rfl (by decide)).1,
    (route_layersInfo sampleHost sampleOps
      (sampleRequest "/rest/services/x/featureserver/LAYERS" [] none) .undefined
      [(js "limit", .nat 2000)] (js "/rest/services/x/featureserver/LAYERS") rfl rfl
      (by decide) (by decide) rfl (by decide)).2.1,
    (route_layersInfo sampleHost sampleOps
      (sampleRequest "/rest/services/x/featureserver/LAYERS" [] none) .undefined
      [(js "limit", .nat 2000)] (js "/rest/services/x/featureserver/LAYERS") rfl rfl
      (by decide) (by decide) rfl (by decide)).2.2.2.1 _ rfl,
    (route_layersInfo sampleHost (failingOps ⟨js "gone", some 404⟩)
      (sampleRequest "/rest/services/x/featureserver/LAYERS" [] none) .undefined
      [(js "limit", .nat 2000)] (js "/rest/services/x/featureserver/LAYERS") rfl rfl
      (by decide) (by decide) rfl (by decide)).2.2.2.2 _ rfl⟩

/-- C7: for a request that passes normalization (the lint call returns and validation
passes) and whose method token is neither `query` nor `generateRenderer`, a path that
contains `/FeatureServer`, compared without regard to case, and matches none of the
patterns of Root-Info, Server-Info, Layer-Info and Layers-List-Info is answered with
status 400 and the body `{ error: 'Method not supported' }`, and no collaborator is
called. -/
theorem route_methodNotSupported (host : Host) (ops : Ops) (req : Request)
    (geojson : JsValue) (query : Query) (p : JsString) (hlint : lint host geojson = .ok ())
    (hnorm : normalize (req.query.getD []) (metadataOf geojson) = .ok query)
    (hquery : methodOf req ≠ some (js "query"))
    (hrend : methodOf req ≠ some (js "generateRenderer"))
    (hpath : requestPath req = some p)
    (hcontains : ContainsIgnoringCase (js "/FeatureServer") p)
    (hroot : reRestInfo.test p = false)
    (hserver : reServer.test p = false ∧ reServerInfo.test p = false ∧
      reServerSlash.test p = false)
    (hlayer : reLayer.test p = false ∧ reLayerInfo.test p = false ∧
      reLayerSlash.test p = false)
    (hlayers : reLayers.test p = false) :
    route host ops req geojson
      = ⟨[], [⟨400, .obj [(js "error", .str (js "Method not supported"))]⟩], none⟩ := by
  have hc : classify p = .methodNotSupported := by
    unfold classify
    simp only [hroot, hserver.1, hserver.2.1, hserver.2.2, hlayer.1, hlayer.2.1, hlayer.2.2,
      hlayers, catchAll_of_contains p hcontains, Bool.or_false, Bool.false_eq_true,
      if_false, if_true]
  rw [route_info host ops req geojson query p hlint hnorm hquery hrend hpath, hc]
  rfl

theorem route_methodNotSupported_witness :
    route sampleHost sampleOps (sampleRequest "/rest/services/x/featureserver/banana" [] none)
        .undefined
      = ⟨[], [⟨400, .obj [(js "error", .str (js "Method not supported"))]⟩], none⟩ :=
  route_methodNotSupported sampleHost sampleOps
    (sampleRequest "/rest/services/x/featureserver/banana" [] none) .undefined
    [(js "limit", .nat 2000)] (js "/rest/services/x/featureserver/banana") rfl rfl
    (by decide) (by decide) rfl (by decide) (by decide) (by decide) (by decide) (by decide)

/-- C8: for a request that passes normalization (the lint call returns and validation
passes) and whose method token is neither `query` nor `generateRenderer`, a path that
neither ends with `/rest/info` nor contains `/FeatureServer`, both compared without regard
to case as the classifier does, is answered with status 404 and the body
`{ error: 'Not Found' }`, and no collaborator is called. -/
theorem route_notFound (host : Host) (ops : Ops) (req : Request) (geojson : JsValue)
    (query : Query) (p : JsString) (hlint : lint host geojson = .ok ())
    (hnorm : normalize (req.query.getD []) (metadataOf geojson) = .ok query)
    (hquery : methodOf req ≠ some (js "query"))
    (hrend : methodOf req ≠ some (js "generateRenderer"))
    (hpath : requestPath req = some p)
    (hrest : ¬ EndsWithIgnoringCase (js "/rest/info") p)
    (hfs : ¬ ContainsIgnoringCase (js "/FeatureServer") p) :
    route host ops req geojson
      = ⟨[], [⟨404, .obj [(js "error", .str (js "Not Found"))]⟩], none⟩ := by
  rw [route_info host ops req geojson query p hlint hnorm hquery hrend hpath,
    classify_notFound p hrest hfs]
  rfl

theorem route_notFound_witness :
    route sampleHost sampleOps (sampleRequest "/unrelated/path" [] none) .undefined
      = ⟨[], [⟨404, .obj [(js "error", .str (js "Not Found"))]⟩], none⟩ :=
  route_notFound sampleHost sampleOps (sampleRequest "/unrelated/path" [] none) .undefined
    [(js "limit", .nat 2000)] (js "/unrelated/path") rfl rfl (by decide) (by decide) rfl
    (by decide) (by decide)

/-- C9: for a request that passes normalization (the lint call returns and validation
passes) and carries the method token `query`, `route` calls the query engine with the
feature source and the normalized query, whatever `url` and `originalUrl` are, and delivers
200 with its payload, or the status and message of its failure; with the method token
`generateRenderer` it does the same with the renderer generator. -/
theorem route_method_token (host : Host) (ops : Ops) (req : Request) (geojson : JsValue)
    (query : Query) (token : JsString) (hlint : lint host geojson = .ok ())
    (hnorm : normalize (req.query.getD []) (metadataOf geojson) = .ok query)
    (htoken : methodOf req = some token)
    (hcase : token = js "query" ∨ token = js "generateRenderer")
    (url originalUrl : Option JsString) :
    (∀ payload,
        (if token = js "query" then ops.query (sourceOf geojson) query
          else ops.generateRenderer (sourceOf geojson) query) = .ok payload →
        route host ops ⟨url, originalUrl, req.query, req.params⟩ geojson
          = ⟨[if token = js "query" then Call.query (sourceOf geojson) query
                else Call.generateRenderer (sourceOf geojson) query],
              [⟨200, payload⟩], none⟩) ∧
      (∀ e,
        (if token = js "query" then ops.query (sourceOf geojson) query
          else ops.generateRenderer (sourceOf geojson) query) = .error e →
        route host ops ⟨url, originalUrl, req.query, req.params⟩ geojson
          = ⟨[if token = js "query" then Call.query (sourceOf geojson) query
                else Call.generateRenderer (sourceOf geojson) query],
              [⟨failureStatus e, .obj [(js "error", .str e.message)]⟩], none⟩) := by
  have hm : methodOf ⟨url, originalUrl, req.query, req.params⟩ = some token := htoken
  have hr := route_lint_returns host ops ⟨url, originalUrl, req.query, req.params⟩ geojson hlint
  rcases hcase with rfl | rfl
  · have h : route host ops ⟨url, originalUrl, req.query, req.params⟩ geojson
        = respond [.query (sourceOf geojson) query] (ops.query (sourceOf geojson) query) := by
      rw [hr]
      simp only [routeAfterLint, hnorm, hm, if_true, execQuery]
    simp only [if_true]
    constructor
    · intro payload hp
      rw [h, hp]
      rfl
    · intro e he
      rw [h, he]
      rfl
  · have hne : ¬ (js "generateRenderer" = js "query") := by decide
    have hne' : ¬ (some (js "generateRenderer") = some (js "query")) := by decide
    have h : route host ops ⟨url, originalUrl, req.query, req.params⟩ geojson
        = respond [.generateRenderer (sourceOf geojson) query]
            (ops.generateRenderer (sourceOf geojson) query) := by
      rw [hr]
      simp only [routeAfterLint, hnorm, hm, hne', if_false, if_true, execGenerateRenderer]
    simp only [hne, if_false]
    constructor
    · intro payload hp
      rw [h, hp]
      rfl
    · intro e he
      rw [h, he]
      rfl

theorem route_method_token_witness :
    (∀ url originalUrl : Option JsString,
        route sampleHost sampleOps ⟨url, originalUrl, some [], some (sampleParams (some "query"))⟩
            .undefined
          = ⟨[.query (.obj []) [(js "limit", .nat 2000)]], [⟨200, .str (js "features")⟩],
              none⟩) ∧
      (∀ url originalUrl : Option JsString,
        route sampleHost sampleOps
            ⟨url, originalUrl, some [], some (sampleParams (some "generateRenderer"))⟩ .undefined
          = ⟨[.generateRenderer (.obj []) [(js "limit", .nat 2000)]],
              [⟨200, .str (js "renderer")⟩], none⟩) ∧
      (∀ url originalUrl : Option JsString,
        route sampleHost (failingOps ⟨js "gone", some 404⟩)
            ⟨url, originalUrl, some [], some (sampleParams (some "query"))⟩ .undefined
          = ⟨[.query (.obj []) [(js "limit", .nat 2000)]],
              [⟨404, .obj [(js "error", .str (js "gone"))]⟩], none⟩) :=
  ⟨fun url originalUrl =>
      (route_method_token sampleHost sampleOps (sampleRequest "/rest/info" [] (some "query"))
        .undefined [(js "limit", .nat 2000)] (js "query") rfl rfl rfl (Or.inl rfl)
        url originalUrl).1 _ rfl,
    fun url originalUrl =>
      (route_method_token sampleHost sampleOps
        (sampleRequest "/FeatureServer/3" [] (some "generateRenderer"))
        .undefined [(js "limit", .nat 2000)] (js "generateRenderer") rfl rfl rfl
        (Or.inr rfl) url originalUrl).1 _ rfl,
    fun url originalUrl =>
      (route_method_token sampleHost (failingOps ⟨js "gone", some 404⟩)
        (sampleRequest "/unrelated" [] (some "query"))
        .undefined [(js "limit", .nat 2000)] (js "query") rfl rfl rfl (Or.inl rfl)
        url originalUrl).2 _ rfl⟩

end FeatureServer
